import Mathlib

/-!
Verification development for the sparobot water-chemistry core.

The two source components are embedded shallowly:

* `src/js/chemistry.js` — parameter tables, dosage tables and the
  `calculateCorrections` planner.  All arithmetic in that file is exact
  decimal arithmetic on JS numbers whose values stay inside ℚ, so the
  embedding uses `ℚ` and is fully computable.  The presentation-only
  string fields of a correction record (`reason`, `notes`,
  `calcBreakdown`, and the `formatAmount` rendering of the raw amount)
  are represented structurally: the raw quantity before unit-formatting
  is kept as a rational together with its unit, and the `action` string
  is kept as the structured datum it interpolates (kind, current
  reading, target).

* `src/js/colorChart.js` — reference charts and the Lab-space matching
  algorithms, embedded over ℝ further below.
-/

namespace Sparobot

/-- One entry of `PARAMETERS` in chemistry.js. -/
structure Param where
  name : String
  unit : String
  idealMin : ℚ
  idealMax : ℚ
  levels : List ℚ
deriving DecidableEq, Repr

def pFreeChlorine : Param :=
  ⟨"Free Chlorine", "ppm", 3, 5, [0, 1, 2, 3, 5, 10]⟩

def pTotalChlorine : Param :=
  ⟨"Total Chlorine", "ppm", 3, 5, [0, 0.5, 1, 2, 5, 10]⟩

def pBromine : Param :=
  ⟨"Total Bromine", "ppm", 4, 6, [0, 1, 2, 4, 10, 20]⟩

def pPH : Param :=
  ⟨"pH", "", 7.2, 7.8, [6.4, 6.8, 7.2, 7.8, 8.4]⟩

def pTotalAlkalinity : Param :=
  ⟨"Total Alkalinity", "ppm", 80, 120, [0, 40, 80, 120, 180, 240]⟩

def pTotalHardness : Param :=
  ⟨"Calcium Hardness", "ppm", 175, 250, [0, 100, 200, 400, 800]⟩

def pCyanuricAcid : Param :=
  ⟨"Cyanuric Acid", "ppm", 30, 50, [0, 40, 70, 100, 150, 300]⟩

/-- The `PARAMETERS` object: a key-indexed table of parameter records. -/
def PARAMETERS : List (String × Param) :=
  [(("freeChlorine"), pFreeChlorine),
   (("totalChlorine"), pTotalChlorine),
   (("bromine"), pBromine),
   (("pH"), pPH),
   (("totalAlkalinity"), pTotalAlkalinity),
   (("totalHardness"), pTotalHardness),
   (("cyanuricAcid"), pCyanuricAcid)]

/-- `PARAMETERS[paramKey]` property lookup. -/
def getParam (key : String) : Option Param :=
  (PARAMETERS.find? (fun p => p.1 == key)).map Prod.snd

/-- `getStatus` from chemistry.js. -/
def getStatus (paramKey : String) (value : ℚ) : String :=
  match getParam paramKey with
  | none => "unknown"
  | some param =>
    if value < param.idealMin then "low"
    else if value > param.idealMax then "high"
    else "ok"

/-- One entry of `DOSAGES` in chemistry.js.  `ratePer` is the field the
source calls `ppmPer` (or `phPer` for the two pH rules): the
concentration change achieved by `per10kGal` of chemical. -/
structure Dosage where
  chemical : String
  per10kGal : ℚ
  unit : String
  ratePer : ℚ
deriving DecidableEq, Repr

def alkalinityUp : Dosage := ⟨"Sodium Bicarbonate (Baking Soda)", 1.5, "lbs", 10⟩

def phUp : Dosage := ⟨"Soda Ash (Sodium Carbonate)", 6, "oz", 0.2⟩

def phDown : Dosage := ⟨"Sodium Bisulfate (pH Decreaser)", 12, "oz", 0.2⟩

def chlorineUp : Dosage := ⟨"Sodium Dichlor (56% Chlorine Granules)", 2, "oz", 1.5⟩

def bromineUp : Dosage := ⟨"Sodium Bromide + MPS Shock", 2, "oz", 2⟩

def hardnessUp : Dosage := ⟨"Calcium Chloride", 1.25, "lbs", 10⟩

def cyaUp : Dosage := ⟨"Cyanuric Acid (Stabilizer)", 1, "lbs", 12⟩

/-- The `readings` argument of `calculateCorrections`: a panel where each
parameter key may be absent (`readings[k] !== undefined` in the source
becomes `some`/`none`). -/
structure Readings where
  freeChlorine : Option ℚ := none
  bromine : Option ℚ := none
  pH : Option ℚ := none
  totalAlkalinity : Option ℚ := none
  totalHardness : Option ℚ := none
  cyanuricAcid : Option ℚ := none
deriving DecidableEq, Repr

/-- Structured form of a correction's `action` string: the string
interpolates the current reading and (for raise/lower) the target. -/
inductive CorrAction where
  | raise (fromVal toVal : ℚ)
  | lower (fromVal toVal : ℚ)
  | diluteHigh (fromVal : ℚ)
  | aerateHigh (fromVal : ℚ)
deriving DecidableEq, Repr

/-- Structured form of a correction's `amount` string.  `chem raw u` is
the raw computed quantity `amt` before `formatAmount(amt, u)`; `drain`
is the dilution percentage; `aerate` is the no-chemical case. -/
inductive CorrAmount where
  | chem (raw : ℚ) (unit : String)
  | drain (pct : ℤ)
  | aerate
deriving DecidableEq, Repr

/-- One correction record pushed by `calculateCorrections`. -/
structure Correction where
  order : ℕ
  parameter : String
  action : CorrAction
  chemical : String
  amount : CorrAmount
  waitMinutes : ℕ
deriving DecidableEq, Repr

/-- JS `Math.round` on the nonnegative rationals used here:
round-half-up. -/
def jsRound (q : ℚ) : ℤ := ⌊q + 1 / 2⌋

/-- The comparator `(a, b) => a.order - b.order` used on the corrections
array: ascending by `order`. -/
def ordLE (a b : Correction) : Prop := a.order ≤ b.order

instance : DecidableRel ordLE := fun a b => Nat.decLe a.order b.order

instance : IsTotal Correction ordLE := ⟨fun a b => Nat.le_total a.order b.order⟩

instance : IsTrans Correction ordLE := ⟨fun _ _ _ => Nat.le_trans⟩

/-- Step 1 of `calculateCorrections`: Total Alkalinity. -/
def stepAlkalinity (readings : Readings) (scale : ℚ) : List Correction :=
  match readings.totalAlkalinity with
  | none => []
  | some val =>
    let p := pTotalAlkalinity
    let target := (p.idealMin + p.idealMax) / 2
    if val < p.idealMin then
      let ppmNeeded := target - val
      let d := alkalinityUp
      let amt := ppmNeeded / d.ratePer * d.per10kGal * scale
      [⟨1, ("Total Alkalinity"), .raise val target, d.chemical, .chem amt d.unit, 20⟩]
    else if val > p.idealMax then
      let excess := val - p.idealMax
      let amt := excess * 0.1 * scale
      [⟨1, ("Total Alkalinity"), .lower val p.idealMax,
        ("Sodium Bisulfate (pH Decreaser)"), .chem amt ("oz"), 20⟩]
    else []

/-- Step 2 of `calculateCorrections`: pH (hardcoded target 7.5). -/
def stepPH (readings : Readings) (scale : ℚ) : List Correction :=
  match readings.pH with
  | none => []
  | some val =>
    let p := pPH
    let target : ℚ := 7.5
    if val < p.idealMin then
      let phNeeded := target - val
      let d := phUp
      let amt := phNeeded / d.ratePer * d.per10kGal * scale
      [⟨2, ("pH"), .raise val target, d.chemical, .chem amt d.unit, 20⟩]
    else if val > p.idealMax then
      let phNeeded := val - target
      let d := phDown
      let amt := phNeeded / d.ratePer * d.per10kGal * scale
      [⟨2, ("pH"), .lower val target, d.chemical, .chem amt d.unit, 20⟩]
    else []

/-- Step 3 of `calculateCorrections`: Calcium Hardness. -/
def stepHardness (readings : Readings) (scale : ℚ) : List Correction :=
  match readings.totalHardness with
  | none => []
  | some val =>
    let p := pTotalHardness
    let target := (p.idealMin + p.idealMax) / 2
    if val < p.idealMin then
      let ppmNeeded := target - val
      let d := hardnessUp
      let amt := ppmNeeded / d.ratePer * d.per10kGal * scale
      [⟨3, ("Calcium Hardness"), .raise val target, d.chemical, .chem amt d.unit, 20⟩]
    else if val > p.idealMax then
      let pct := jsRound ((1 - p.idealMax / val) * 100)
      [⟨3, ("Calcium Hardness"), .diluteHigh val,
        ("Partial Water Replacement"), .drain pct, 60⟩]
    else []

/-- Step 4 of `calculateCorrections`: sanitizer.  The source selects
`sanKey = sanitizerType === 'bromine' ? 'bromine' : 'freeChlorine'`. -/
def stepSanitizer (readings : Readings) (scale : ℚ) (sanitizerType : String) :
    List Correction :=
  let sanVal := if sanitizerType = "bromine" then readings.bromine else readings.freeChlorine
  match sanVal with
  | none => []
  | some val =>
    let p := if sanitizerType = "bromine" then pBromine else pFreeChlorine
    let target := (p.idealMin + p.idealMax) / 2
    if val < p.idealMin then
      let ppmNeeded := target - val
      let d := if sanitizerType = "bromine" then bromineUp else chlorineUp
      let amt := ppmNeeded / d.ratePer * d.per10kGal * scale
      [⟨4, p.name, .raise val target, d.chemical, .chem amt d.unit, 15⟩]
    else if val > p.idealMax then
      [⟨4, p.name, .aerateHigh val, ("Wait & Aerate"), .aerate, 30⟩]
    else []

/-- Step 5 of `calculateCorrections`: Cyanuric Acid, guarded by
`sanitizerType === 'chlorine'`. -/
def stepCYA (readings : Readings) (scale : ℚ) (sanitizerType : String) :
    List Correction :=
  if sanitizerType = "chlorine" then
    match readings.cyanuricAcid with
    | none => []
    | some val =>
      let p := pCyanuricAcid
      let target := (p.idealMin + p.idealMax) / 2
      if val < p.idealMin then
        let ppmNeeded := target - val
        let d := cyaUp
        let amt := ppmNeeded / d.ratePer * d.per10kGal * scale
        [⟨5, ("Cyanuric Acid"), .raise val target, d.chemical, .chem amt d.unit, 30⟩]
      else if val > p.idealMax then
        let pct := jsRound ((1 - p.idealMax / val) * 100)
        [⟨5, ("Cyanuric Acid"), .diluteHigh val,
          ("Partial Water Replacement"), .drain pct, 60⟩]
      else []
  else []

/-- `calculateCorrections(readings, volumeGallons, sanitizerType)`:
the five steps push in tier order and the result is sorted ascending by
`order` (the JS `corrections.sort((a, b) => a.order - b.order)`). -/
def calculateCorrections (readings : Readings) (volumeGallons : ℚ)
    (sanitizerType : String) : List Correction :=
  let scale := volumeGallons / 10000
  List.insertionSort ordLE
    (stepAlkalinity readings scale ++ stepPH readings scale ++
      stepHardness readings scale ++ stepSanitizer readings scale sanitizerType ++
      stepCYA readings scale sanitizerType)

/-! ### Structural lemmas about the planner -/

theorem order_of_mem_stepAlkalinity {r : Readings} {sc : ℚ} {c : Correction}
    (h : c ∈ stepAlkalinity r sc) : c.order = 1 := by
  unfold stepAlkalinity at h
  dsimp only at h
  split at h
  · simp at h
  · split_ifs at h <;> simp_all

theorem order_of_mem_stepPH {r : Readings} {sc : ℚ} {c : Correction}
    (h : c ∈ stepPH r sc) : c.order = 2 := by
  unfold stepPH at h
  dsimp only at h
  split at h
  · simp at h
  · split_ifs at h <;> simp_all

theorem order_of_mem_stepHardness {r : Readings} {sc : ℚ} {c : Correction}
    (h : c ∈ stepHardness r sc) : c.order = 3 := by
  unfold stepHardness at h
  dsimp only at h
  split at h
  · simp at h
  · split_ifs at h <;> simp_all

theorem order_of_mem_stepSanitizer {r : Readings} {sc : ℚ} {s : String} {c : Correction}
    (h : c ∈ stepSanitizer r sc s) : c.order = 4 := by
  unfold stepSanitizer at h
  dsimp only at h
  split at h
  · simp at h
  · split_ifs at h <;> simp_all

theorem order_of_mem_stepCYA {r : Readings} {sc : ℚ} {s : String} {c : Correction}
    (h : c ∈ stepCYA r sc s) : c.order = 5 := by
  unfold stepCYA at h
  dsimp only at h
  split_ifs at h
  · split at h
    · simp at h
    · split_ifs at h <;> simp_all
  · simp at h

theorem length_stepAlkalinity (r : Readings) (sc : ℚ) :
    (stepAlkalinity r sc).length ≤ 1 := by
  unfold stepAlkalinity
  dsimp only
  split
  · simp
  · split_ifs <;> simp

theorem length_stepPH (r : Readings) (sc : ℚ) : (stepPH r sc).length ≤ 1 := by
  unfold stepPH
  dsimp only
  split
  · simp
  · split_ifs <;> simp

theorem length_stepHardness (r : Readings) (sc : ℚ) :
    (stepHardness r sc).length ≤ 1 := by
  unfold stepHardness
  dsimp only
  split
  · simp
  · split_ifs <;> simp

theorem length_stepSanitizer (r : Readings) (sc : ℚ) (s : String) :
    (stepSanitizer r sc s).length ≤ 1 := by
  unfold stepSanitizer
  dsimp only
  split
  · simp
  · split_ifs <;> simp

theorem length_stepCYA (r : Readings) (sc : ℚ) (s : String) :
    (stepCYA r sc s).length ≤ 1 := by
  unfold stepCYA
  dsimp only
  split_ifs
  · split
    · simp
    · split_ifs <;> simp
  · simp

theorem sorted_short {l : List Correction} (h : l.length ≤ 1) :
    List.Sorted ordLE l := by
  match l with
  | [] => exact List.sorted_nil
  | [c] => exact List.sorted_singleton c
  | a :: b :: t => simp at h

theorem sorted_append_orders {l1 l2 : List Correction} (k : ℕ)
    (h1 : List.Sorted ordLE l1) (h2 : List.Sorted ordLE l2)
    (b1 : ∀ c ∈ l1, c.order ≤ k) (b2 : ∀ c ∈ l2, k ≤ c.order) :
    List.Sorted ordLE (l1 ++ l2) := by
  rw [List.Sorted, List.pairwise_append]
  exact ⟨h1, h2, fun a ha b hb => Nat.le_trans (b1 a ha) (b2 b hb)⟩

/-- The five blocks push corrections whose `order` fields already ascend,
so the concatenated list is sorted. -/
theorem sorted_steps (r : Readings) (sc : ℚ) (s : String) :
    List.Sorted ordLE (stepAlkalinity r sc ++ stepPH r sc ++ stepHardness r sc ++
      stepSanitizer r sc s ++ stepCYA r sc s) := by
  have s1 := sorted_short (length_stepAlkalinity r sc)
  have s2 := sorted_short (length_stepPH r sc)
  have s3 := sorted_short (length_stepHardness r sc)
  have s4 := sorted_short (length_stepSanitizer r sc s)
  have s5 := sorted_short (length_stepCYA r sc s)
  have a12 : List.Sorted ordLE (stepAlkalinity r sc ++ stepPH r sc) :=
    sorted_append_orders 2 s1 s2
      (fun c hc => by rw [order_of_mem_stepAlkalinity hc]; norm_num)
      (fun c hc => by rw [order_of_mem_stepPH hc])
  have a123 : List.Sorted ordLE (stepAlkalinity r sc ++ stepPH r sc ++ stepHardness r sc) :=
    sorted_append_orders 3 a12 s3
      (fun c hc => by
        rcases List.mem_append.mp hc with h | h
        · rw [order_of_mem_stepAlkalinity h]; norm_num
        · rw [order_of_mem_stepPH h]; norm_num)
      (fun c hc => by rw [order_of_mem_stepHardness hc])
  have a1234 : List.Sorted ordLE (stepAlkalinity r sc ++ stepPH r sc ++
      stepHardness r sc ++ stepSanitizer r sc s) :=
    sorted_append_orders 4 a123 s4
      (fun c hc => by
        rcases List.mem_append.mp hc with h | h
        · rcases List.mem_append.mp h with h' | h'
          · rw [order_of_mem_stepAlkalinity h']; norm_num
          · rw [order_of_mem_stepPH h']; norm_num
        · rw [order_of_mem_stepHardness h]; norm_num)
      (fun c hc => by rw [order_of_mem_stepSanitizer hc])
  exact
    sorted_append_orders 5 a1234 s5
      (fun c hc => by
        rcases List.mem_append.mp hc with h | h
        · rcases List.mem_append.mp h with h' | h'
          · rcases List.mem_append.mp h' with h'' | h''
            · rw [order_of_mem_stepAlkalinity h'']; norm_num
            · rw [order_of_mem_stepPH h'']; norm_num
          · rw [order_of_mem_stepHardness h']; norm_num
        · rw [order_of_mem_stepSanitizer h]; norm_num)
      (fun c hc => by rw [order_of_mem_stepCYA hc])

/-- The final `sort` is the identity on the already-ascending pushes, so
`calculateCorrections` is the concatenation of the five step blocks. -/
theorem calculateCorrections_eq (r : Readings) (v : ℚ) (s : String) :
    calculateCorrections r v s =
      stepAlkalinity r (v / 10000) ++ stepPH r (v / 10000) ++
        stepHardness r (v / 10000) ++ stepSanitizer r (v / 10000) s ++
        stepCYA r (v / 10000) s := by
  unfold calculateCorrections
  exact List.Sorted.insertionSort_eq (sorted_steps r (v / 10000) s)

/-! ### Per-branch characterizations of the five steps -/

theorem stepAlkalinity_none {r : Readings} {sc : ℚ} (ha : r.totalAlkalinity = none) :
    stepAlkalinity r sc = [] := by
  unfold stepAlkalinity
  rw [ha]

theorem stepAlkalinity_low {r : Readings} {sc a : ℚ}
    (ha : r.totalAlkalinity = some a) (h : a < 80) :
    stepAlkalinity r sc =
      [⟨1, ("Total Alkalinity"), .raise a 100,
        ("Sodium Bicarbonate (Baking Soda)"), .chem ((100 - a) / 10 * 1.5 * sc) ("lbs"), 20⟩] := by
  unfold stepAlkalinity
  rw [ha]
  dsimp only
  rw [if_pos (by norm_num [pTotalAlkalinity]; linarith)]
  norm_num [pTotalAlkalinity, alkalinityUp]

theorem stepAlkalinity_high {r : Readings} {sc a : ℚ}
    (ha : r.totalAlkalinity = some a) (h : 120 < a) :
    stepAlkalinity r sc =
      [⟨1, ("Total Alkalinity"), .lower a 120,
        ("Sodium Bisulfate (pH Decreaser)"), .chem ((a - 120) * 0.1 * sc) ("oz"), 20⟩] := by
  unfold stepAlkalinity
  rw [ha]
  dsimp only
  rw [if_neg (by norm_num [pTotalAlkalinity]; linarith),
    if_pos (by norm_num [pTotalAlkalinity]; linarith)]
  norm_num [pTotalAlkalinity]

theorem stepAlkalinity_ok {r : Readings} {sc a : ℚ}
    (ha : r.totalAlkalinity = some a) (h1 : 80 ≤ a) (h2 : a ≤ 120) :
    stepAlkalinity r sc = [] := by
  unfold stepAlkalinity
  rw [ha]
  dsimp only
  rw [if_neg (by norm_num [pTotalAlkalinity]; linarith),
    if_neg (by norm_num [pTotalAlkalinity]; linarith)]

theorem stepPH_none {r : Readings} {sc : ℚ} (ha : r.pH = none) :
    stepPH r sc = [] := by
  unfold stepPH
  rw [ha]

theorem stepPH_low {r : Readings} {sc a : ℚ}
    (ha : r.pH = some a) (h : a < 7.2) :
    stepPH r sc =
      [⟨2, ("pH"), .raise a 7.5,
        ("Soda Ash (Sodium Carbonate)"), .chem ((7.5 - a) / 0.2 * 6 * sc) ("oz"), 20⟩] := by
  unfold stepPH
  rw [ha]
  dsimp only
  rw [if_pos (by norm_num [pPH]; linarith)]
  norm_num [pPH, phUp]

theorem stepPH_high {r : Readings} {sc a : ℚ}
    (ha : r.pH = some a) (h : 7.8 < a) :
    stepPH r sc =
      [⟨2, ("pH"), .lower a 7.5,
        ("Sodium Bisulfate (pH Decreaser)"), .chem ((a - 7.5) / 0.2 * 12 * sc) ("oz"), 20⟩] := by
  unfold stepPH
  rw [ha]
  dsimp only
  rw [if_neg (by norm_num [pPH]; linarith), if_pos (by norm_num [pPH]; linarith)]
  norm_num [pPH, phDown]

theorem stepPH_ok {r : Readings} {sc a : ℚ}
    (ha : r.pH = some a) (h1 : 7.2 ≤ a) (h2 : a ≤ 7.8) :
    stepPH r sc = [] := by
  unfold stepPH
  rw [ha]
  dsimp only
  rw [if_neg (by norm_num [pPH]; linarith), if_neg (by norm_num [pPH]; linarith)]

theorem stepHardness_none {r : Readings} {sc : ℚ} (ha : r.totalHardness = none) :
    stepHardness r sc = [] := by
  unfold stepHardness
  rw [ha]

theorem stepHardness_low {r : Readings} {sc a : ℚ}
    (ha : r.totalHardness = some a) (h : a < 175) :
    stepHardness r sc =
      [⟨3, ("Calcium Hardness"), .raise a 212.5,
        ("Calcium Chloride"), .chem ((212.5 - a) / 10 * 1.25 * sc) ("lbs"), 20⟩] := by
  unfold stepHardness
  rw [ha]
  dsimp only
  rw [if_pos (by norm_num [pTotalHardness]; linarith)]
  norm_num [pTotalHardness, hardnessUp]

theorem stepHardness_high {r : Readings} {sc a : ℚ}
    (ha : r.totalHardness = some a) (h : 250 < a) :
    stepHardness r sc =
      [⟨3, ("Calcium Hardness"), .diluteHigh a,
        ("Partial Water Replacement"), .drain (jsRound ((1 - 250 / a) * 100)), 60⟩] := by
  unfold stepHardness
  rw [ha]
  dsimp only
  rw [if_neg (by norm_num [pTotalHardness]; linarith),
    if_pos (by norm_num [pTotalHardness]; linarith)]
  norm_num [pTotalHardness]

theorem stepHardness_ok {r : Readings} {sc a : ℚ}
    (ha : r.totalHardness = some a) (h1 : 175 ≤ a) (h2 : a ≤ 250) :
    stepHardness r sc = [] := by
  unfold stepHardness
  rw [ha]
  dsimp only
  rw [if_neg (by norm_num [pTotalHardness]; linarith),
    if_neg (by norm_num [pTotalHardness]; linarith)]

theorem stepSanitizer_chlorine_none {r : Readings} {sc : ℚ} {s : String}
    (hs : s ≠ "bromine") (ha : r.freeChlorine = none) :
    stepSanitizer r sc s = [] := by
  unfold stepSanitizer
  simp only [if_neg hs]
  rw [ha]

theorem stepSanitizer_chlorine_low {r : Readings} {sc a : ℚ} {s : String}
    (hs : s ≠ "bromine") (ha : r.freeChlorine = some a) (h : a < 3) :
    stepSanitizer r sc s =
      [⟨4, ("Free Chlorine"), .raise a 4,
        ("Sodium Dichlor (56% Chlorine Granules)"), .chem ((4 - a) / 1.5 * 2 * sc) ("oz"), 15⟩] := by
  unfold stepSanitizer
  simp only [if_neg hs]
  rw [ha]
  dsimp only
  rw [if_pos (by norm_num [pFreeChlorine]; linarith)]
  norm_num [pFreeChlorine, chlorineUp]

theorem stepSanitizer_chlorine_high {r : Readings} {sc a : ℚ} {s : String}
    (hs : s ≠ "bromine") (ha : r.freeChlorine = some a) (h : 5 < a) :
    stepSanitizer r sc s =
      [⟨4, ("Free Chlorine"), .aerateHigh a, ("Wait & Aerate"), .aerate, 30⟩] := by
  unfold stepSanitizer
  simp only [if_neg hs]
  rw [ha]
  dsimp only
  rw [if_neg (by norm_num [pFreeChlorine]; linarith),
    if_pos (by norm_num [pFreeChlorine]; linarith)]
  norm_num [pFreeChlorine]

theorem stepSanitizer_chlorine_ok {r : Readings} {sc a : ℚ} {s : String}
    (hs : s ≠ "bromine") (ha : r.freeChlorine = some a) (h1 : 3 ≤ a) (h2 : a ≤ 5) :
    stepSanitizer r sc s = [] := by
  unfold stepSanitizer
  simp only [if_neg hs]
  rw [ha]
  dsimp only
  rw [if_neg (by norm_num [pFreeChlorine]; linarith),
    if_neg (by norm_num [pFreeChlorine]; linarith)]

theorem stepSanitizer_bromine_none {r : Readings} {sc : ℚ}
    (ha : r.bromine = none) : stepSanitizer r sc ("bromine") = [] := by
  unfold stepSanitizer
  simp only [reduceIte]
  rw [ha]

theorem stepSanitizer_bromine_low {r : Readings} {sc a : ℚ}
    (ha : r.bromine = some a) (h : a < 4) :
    stepSanitizer r sc ("bromine") =
      [⟨4, ("Total Bromine"), .raise a 5,
        ("Sodium Bromide + MPS Shock"), .chem ((5 - a) / 2 * 2 * sc) ("oz"), 15⟩] := by
  unfold stepSanitizer
  simp only [reduceIte]
  rw [ha]
  dsimp only
  rw [if_pos (by norm_num [pBromine]; linarith)]
  norm_num [pBromine, bromineUp]

theorem stepSanitizer_bromine_high {r : Readings} {sc a : ℚ}
    (ha : r.bromine = some a) (h : 6 < a) :
    stepSanitizer r sc ("bromine") =
      [⟨4, ("Total Bromine"), .aerateHigh a, ("Wait & Aerate"), .aerate, 30⟩] := by
  unfold stepSanitizer
  simp only [reduceIte]
  rw [ha]
  dsimp only
  rw [if_neg (by norm_num [pBromine]; linarith), if_pos (by norm_num [pBromine]; linarith)]
  norm_num [pBromine]

theorem stepSanitizer_bromine_ok {r : Readings} {sc a : ℚ}
    (ha : r.bromine = some a) (h1 : 4 ≤ a) (h2 : a ≤ 6) :
    stepSanitizer r sc ("bromine") = [] := by
  unfold stepSanitizer
  simp only [reduceIte]
  rw [ha]
  dsimp only
  rw [if_neg (by norm_num [pBromine]; linarith), if_neg (by norm_num [pBromine]; linarith)]

theorem stepCYA_notChlorine {r : Readings} {sc : ℚ} {s : String}
    (hs : s ≠ "chlorine") : stepCYA r sc s = [] := by
  unfold stepCYA
  rw [if_neg hs]

theorem stepCYA_none {r : Readings} {sc : ℚ} (ha : r.cyanuricAcid = none) :
    stepCYA r sc ("chlorine") = [] := by
  unfold stepCYA
  rw [if_pos rfl, ha]

theorem stepCYA_low {r : Readings} {sc a : ℚ}
    (ha : r.cyanuricAcid = some a) (h : a < 30) :
    stepCYA r sc ("chlorine") =
      [⟨5, ("Cyanuric Acid"), .raise a 40,
        ("Cyanuric Acid (Stabilizer)"), .chem ((40 - a) / 12 * 1 * sc) ("lbs"), 30⟩] := by
  unfold stepCYA
  rw [if_pos rfl, ha]
  dsimp only
  rw [if_pos (by norm_num [pCyanuricAcid]; linarith)]
  norm_num [pCyanuricAcid, cyaUp]

theorem stepCYA_high {r : Readings} {sc a : ℚ}
    (ha : r.cyanuricAcid = some a) (h : 50 < a) :
    stepCYA r sc ("chlorine") =
      [⟨5, ("Cyanuric Acid"), .diluteHigh a,
        ("Partial Water Replacement"), .drain (jsRound ((1 - 50 / a) * 100)), 60⟩] := by
  unfold stepCYA
  rw [if_pos rfl, ha]
  dsimp only
  rw [if_neg (by norm_num [pCyanuricAcid]; linarith),
    if_pos (by norm_num [pCyanuricAcid]; linarith)]
  norm_num [pCyanuricAcid]

theorem stepCYA_ok {r : Readings} {sc a : ℚ}
    (ha : r.cyanuricAcid = some a) (h1 : 30 ≤ a) (h2 : a ≤ 50) :
    stepCYA r sc ("chlorine") = [] := by
  unfold stepCYA
  rw [if_pos rfl, ha]
  dsimp only
  rw [if_neg (by norm_num [pCyanuricAcid]; linarith),
    if_neg (by norm_num [pCyanuricAcid]; linarith)]

/-! ### C8: the concrete five-parameter scenario -/

/-- The scenario panel of spec section 8: `{totalAlkalinity: 60, pH: 8.0,
totalHardness: 200, freeChlorine: 2, cyanuricAcid: 20}`. -/
def R8 : Readings :=
  { totalAlkalinity := some 60, pH := some 8, totalHardness := some 200,
    freeChlorine := some 2, cyanuricAcid := some 20 }

/-- C8 counterexample: on the scenario panel at 400 gallons with
chlorine sanitizer, the plan does not contain exactly 5 corrections (the
in-range Calcium Hardness tier is omitted, so there are 4). -/
theorem c8_scenario_counterexample :
    ¬ ((calculateCorrections R8 400 ("chlorine")).length = 5) := by
  have hb : ¬ (("chlorine" : String) = "bromine") := by decide
  rw [calculateCorrections_eq]
  norm_num [hb, stepAlkalinity, stepPH, stepHardness, stepSanitizer, stepCYA, R8,
    pTotalAlkalinity, pPH, pTotalHardness, pFreeChlorine, pCyanuricAcid,
    alkalinityUp, phUp, phDown, chlorineUp, cyaUp]

/-- C8 (amended): the scenario panel at 400 gallons with chlorine
sanitizer yields exactly 4 corrections, in order: Total Alkalinity
raised toward 100, pH lowered toward 7.5, Free Chlorine raised toward 4,
Cyanuric Acid raised toward 40; the Calcium Hardness step is absent
since 200 lies inside [175, 250]. -/
theorem c8_scenario :
    calculateCorrections R8 400 ("chlorine") =
      [⟨1, ("Total Alkalinity"), .raise 60 100,
         ("Sodium Bicarbonate (Baking Soda)"), .chem (6 / 25) ("lbs"), 20⟩,
       ⟨2, ("pH"), .lower 8 7.5,
         ("Sodium Bisulfate (pH Decreaser)"), .chem (6 / 5) ("oz"), 20⟩,
       ⟨4, ("Free Chlorine"), .raise 2 4,
         ("Sodium Dichlor (56% Chlorine Granules)"), .chem (8 / 75) ("oz"), 15⟩,
       ⟨5, ("Cyanuric Acid"), .raise 20 40,
         ("Cyanuric Acid (Stabilizer)"), .chem (1 / 15) ("lbs"), 30⟩] := by
  have hb : ¬ (("chlorine" : String) = "bromine") := by decide
  rw [calculateCorrections_eq]
  norm_num [hb, stepAlkalinity, stepPH, stepHardness, stepSanitizer, stepCYA, R8,
    pTotalAlkalinity, pPH, pTotalHardness, pFreeChlorine, pCyanuricAcid,
    alkalinityUp, phUp, phDown, chlorineUp, cyaUp]

/-! ### C2: volume linearity -/

/-- Doubling transformation on the raw chemical quantity of a
correction; dilution percentages and the aeration case carry no raw
quantity and are untouched. -/
def scaleAmount (k : ℚ) (c : Correction) : Correction :=
  { c with
    amount :=
      match c.amount with
      | .chem raw u => .chem (k * raw) u
      | a => a }

theorem stepAlkalinity_scale (r : Readings) (sc : ℚ) :
    stepAlkalinity r (2 * sc) = (stepAlkalinity r sc).map (scaleAmount 2) := by
  unfold stepAlkalinity
  dsimp only
  split
  · rfl
  · split_ifs <;> simp [scaleAmount] <;> ring

theorem stepPH_scale (r : Readings) (sc : ℚ) :
    stepPH r (2 * sc) = (stepPH r sc).map (scaleAmount 2) := by
  unfold stepPH
  dsimp only
  split
  · rfl
  · split_ifs <;> simp [scaleAmount] <;> ring

theorem stepHardness_scale (r : Readings) (sc : ℚ) :
    stepHardness r (2 * sc) = (stepHardness r sc).map (scaleAmount 2) := by
  unfold stepHardness
  dsimp only
  split
  · rfl
  · split_ifs <;> simp [scaleAmount] <;> ring

theorem stepSanitizer_scale (r : Readings) (sc : ℚ) (s : String) :
    stepSanitizer r (2 * sc) s = (stepSanitizer r sc s).map (scaleAmount 2) := by
  unfold stepSanitizer
  dsimp only
  split
  · rfl
  · split_ifs <;> simp [scaleAmount] <;> ring

theorem stepCYA_scale (r : Readings) (sc : ℚ) (s : String) :
    stepCYA r (2 * sc) s = (stepCYA r sc s).map (scaleAmount 2) := by
  unfold stepCYA
  split_ifs
  · split
    · rfl
    · dsimp only
      split_ifs <;> simp [scaleAmount] <;> ring
  · rfl

/-- C2: for every reading panel, sanitizer type and volume, every raw
chemical quantity computed by `calculateCorrections` at volume `2v` is
exactly twice the corresponding quantity at volume `v`; the whole plan
at `2v` is the plan at `v` with each raw amount doubled (structure,
order, parameters, targets and dilution percentages unchanged). -/
theorem c2_volume_linearity (r : Readings) (v : ℚ) (s : String) :
    calculateCorrections r (2 * v) s =
      (calculateCorrections r v s).map (scaleAmount 2) := by
  rw [calculateCorrections_eq, calculateCorrections_eq,
    show (2 * v / 10000 : ℚ) = 2 * (v / 10000) from by ring,
    stepAlkalinity_scale, stepPH_scale, stepHardness_scale, stepSanitizer_scale,
    stepCYA_scale, List.map_append, List.map_append, List.map_append, List.map_append]

/-! ### C3: the raise formula and its targets -/

/-- C3: for every parameter of the panel read strictly below its
`idealMin` (under the sanitizer-type gating the planner applies to the
sanitizer and stabilizer tiers), the emitted raise correction's raw
amount is `(target - reading) / ruleUnitChange * ruleQuantityPer10k *
(volume / 10000)`, where the target is the midpoint of the ideal range
for every parameter except pH, whose target is the constant 7.5. -/
theorem c3_raise_formula (r : Readings) (v : ℚ) (s : String) :
    (∀ a, r.totalAlkalinity = some a → a < 80 →
      ∃ c ∈ calculateCorrections r v s, c.order = 1 ∧ c.action = .raise a 100 ∧
        c.amount = .chem ((100 - a) / 10 * 1.5 * (v / 10000)) ("lbs")) ∧
    (∀ a, r.pH = some a → a < 7.2 →
      ∃ c ∈ calculateCorrections r v s, c.order = 2 ∧ c.action = .raise a 7.5 ∧
        c.amount = .chem ((7.5 - a) / 0.2 * 6 * (v / 10000)) ("oz")) ∧
    (∀ a, r.totalHardness = some a → a < 175 →
      ∃ c ∈ calculateCorrections r v s, c.order = 3 ∧ c.action = .raise a 212.5 ∧
        c.amount = .chem ((212.5 - a) / 10 * 1.25 * (v / 10000)) ("lbs")) ∧
    (∀ a, s ≠ "bromine" → r.freeChlorine = some a → a < 3 →
      ∃ c ∈ calculateCorrections r v s, c.order = 4 ∧ c.action = .raise a 4 ∧
        c.amount = .chem ((4 - a) / 1.5 * 2 * (v / 10000)) ("oz")) ∧
    (∀ a, s = "bromine" → r.bromine = some a → a < 4 →
      ∃ c ∈ calculateCorrections r v s, c.order = 4 ∧ c.action = .raise a 5 ∧
        c.amount = .chem ((5 - a) / 2 * 2 * (v / 10000)) ("oz")) ∧
    (∀ a, s = "chlorine" → r.cyanuricAcid = some a → a < 30 →
      ∃ c ∈ calculateCorrections r v s, c.order = 5 ∧ c.action = .raise a 40 ∧
        c.amount = .chem ((40 - a) / 12 * 1 * (v / 10000)) ("lbs")) := by
  refine ⟨?_, ?_, ?_, ?_, ?_, ?_⟩
  · intro a ha h
    rw [calculateCorrections_eq, stepAlkalinity_low ha h]
    exact ⟨_, List.mem_append_left _ (List.mem_append_left _ (List.mem_append_left _ (List.mem_append_left _ (List.mem_cons_self _ _)))), rfl, rfl, rfl⟩
  · intro a ha h
    rw [calculateCorrections_eq, stepPH_low ha h]
    exact ⟨_, List.mem_append_left _ (List.mem_append_left _ (List.mem_append_left _ (List.mem_append_right _ (List.mem_cons_self _ _)))), rfl, rfl, rfl⟩
  · intro a ha h
    rw [calculateCorrections_eq, stepHardness_low ha h]
    exact ⟨_, List.mem_append_left _ (List.mem_append_left _ (List.mem_append_right _ (List.mem_cons_self _ _))), rfl, rfl, rfl⟩
  · intro a hs ha h
    rw [calculateCorrections_eq, stepSanitizer_chlorine_low hs ha h]
    exact ⟨_, List.mem_append_left _ (List.mem_append_right _ (List.mem_cons_self _ _)), rfl, rfl, rfl⟩
  · intro a hs ha h
    subst hs
    rw [calculateCorrections_eq, stepSanitizer_bromine_low ha h]
    exact ⟨_, List.mem_append_left _ (List.mem_append_right _ (List.mem_cons_self _ _)), rfl, rfl, rfl⟩
  · intro a hs ha h
    subst hs
    rw [calculateCorrections_eq, stepCYA_low ha h]
    exact ⟨_, List.mem_append_right _ (List.mem_cons_self _ _), rfl, rfl, rfl⟩

/-- An all-low panel used to instantiate the conditional theorems. -/
def RW : Readings :=
  { freeChlorine := some 1, bromine := some 1, pH := some 7,
    totalAlkalinity := some 10, totalHardness := some 100, cyanuricAcid := some 5 }

theorem c3_raise_formula_witness :
    (∃ c ∈ calculateCorrections RW 400 ("chlorine"), c.order = 1 ∧
      c.action = .raise 10 100 ∧
      c.amount = .chem ((100 - 10) / 10 * 1.5 * (400 / 10000)) ("lbs")) ∧
    (∃ c ∈ calculateCorrections RW 400 ("bromine"), c.order = 4 ∧
      c.action = .raise 1 5 ∧
      c.amount = .chem ((5 - 1) / 2 * 2 * (400 / 10000)) ("oz")) ∧
    (∃ c ∈ calculateCorrections RW 400 ("chlorine"), c.order = 5 ∧
      c.action = .raise 5 40 ∧
      c.amount = .chem ((40 - 5) / 12 * 1 * (400 / 10000)) ("lbs")) := by
  refine ⟨?_, ?_, ?_⟩
  · exact (c3_raise_formula RW 400 ("chlorine")).1 10 rfl (by norm_num)
  · exact (c3_raise_formula RW 400 ("bromine")).2.2.2.2.1 1 rfl rfl (by norm_num)
  · exact (c3_raise_formula RW 400 ("chlorine")).2.2.2.2.2 5 rfl rfl (by norm_num)

/-! ### C6: the treatment-order invariant -/

theorem stepAlkalinity_out {r : Readings} {sc a : ℚ}
    (ha : r.totalAlkalinity = some a) (h : a < 80 ∨ 120 < a) :
    (stepAlkalinity r sc).map Correction.order = [1] := by
  rcases h with h | h
  · rw [stepAlkalinity_low ha h]; rfl
  · rw [stepAlkalinity_high ha h]; rfl

theorem stepPH_out {r : Readings} {sc a : ℚ}
    (ha : r.pH = some a) (h : a < 7.2 ∨ 7.8 < a) :
    (stepPH r sc).map Correction.order = [2] := by
  rcases h with h | h
  · rw [stepPH_low ha h]; rfl
  · rw [stepPH_high ha h]; rfl

theorem stepHardness_out {r : Readings} {sc a : ℚ}
    (ha : r.totalHardness = some a) (h : a < 175 ∨ 250 < a) :
    (stepHardness r sc).map Correction.order = [3] := by
  rcases h with h | h
  · rw [stepHardness_low ha h]; rfl
  · rw [stepHardness_high ha h]; rfl

theorem stepSanitizer_chlorine_out {r : Readings} {sc a : ℚ} {s : String}
    (hs : s ≠ "bromine") (ha : r.freeChlorine = some a) (h : a < 3 ∨ 5 < a) :
    (stepSanitizer r sc s).map Correction.order = [4] := by
  rcases h with h | h
  · rw [stepSanitizer_chlorine_low hs ha h]; rfl
  · rw [stepSanitizer_chlorine_high hs ha h]; rfl

theorem stepCYA_out {r : Readings} {sc a : ℚ}
    (ha : r.cyanuricAcid = some a) (h : a < 30 ∨ 50 < a) :
    (stepCYA r sc ("chlorine")).map Correction.order = [5] := by
  rcases h with h | h
  · rw [stepCYA_low ha h]; rfl
  · rw [stepCYA_high ha h]; rfl

/-- C6: on a chlorine-sanitizer panel in which all five parameter
categories are out of their ideal ranges, the correction sequence's
`order` fields are exactly `[1, 2, 3, 4, 5]` — one correction per tier,
in tier order. -/
theorem c6_treatment_order (r : Readings) (v : ℚ) (ta ph ch fc cy : ℚ)
    (hta : r.totalAlkalinity = some ta) (h1 : ta < 80 ∨ 120 < ta)
    (hph : r.pH = some ph) (h2 : ph < 7.2 ∨ 7.8 < ph)
    (hch : r.totalHardness = some ch) (h3 : ch < 175 ∨ 250 < ch)
    (hfc : r.freeChlorine = some fc) (h4 : fc < 3 ∨ 5 < fc)
    (hcy : r.cyanuricAcid = some cy) (h5 : cy < 30 ∨ 50 < cy) :
    (calculateCorrections r v ("chlorine")).map Correction.order = [1, 2, 3, 4, 5] := by
  have hs : ("chlorine" : String) ≠ "bromine" := by decide
  rw [calculateCorrections_eq]
  simp only [List.map_append, stepAlkalinity_out hta h1, stepPH_out hph h2,
    stepHardness_out hch h3, stepSanitizer_chlorine_out hs hfc h4, stepCYA_out hcy h5]
  rfl

/-- An all-out-of-range panel used to instantiate the order invariant. -/
def RAllOut : Readings :=
  { freeChlorine := some 2, pH := some 8, totalAlkalinity := some 60,
    totalHardness := some 300, cyanuricAcid := some 100 }

theorem c6_treatment_order_witness :
    (calculateCorrections RAllOut 400 ("chlorine")).map Correction.order =
      [1, 2, 3, 4, 5] :=
  c6_treatment_order RAllOut 400 60 8 300 2 100 rfl (by norm_num) rfl (by norm_num)
    rfl (by norm_num) rfl (by norm_num) rfl (by norm_num)

/-! ### C7: inclusive ideal-range bounds produce no correction -/

/-- C7: a reading equal to `idealMin` or to `idealMax` (or strictly
between them) produces no correction for that parameter's tier, for
every panel, volume and sanitizer type. -/
theorem c7_inclusive_bounds (r : Readings) (v : ℚ) (s : String) :
    (∀ a, r.totalAlkalinity = some a → 80 ≤ a → a ≤ 120 →
      ∀ c ∈ calculateCorrections r v s, c.order ≠ 1) ∧
    (∀ a, r.pH = some a → 7.2 ≤ a → a ≤ 7.8 →
      ∀ c ∈ calculateCorrections r v s, c.order ≠ 2) ∧
    (∀ a, r.totalHardness = some a → 175 ≤ a → a ≤ 250 →
      ∀ c ∈ calculateCorrections r v s, c.order ≠ 3) ∧
    (∀ a, s ≠ "bromine" → r.freeChlorine = some a → 3 ≤ a → a ≤ 5 →
      ∀ c ∈ calculateCorrections r v s, c.order ≠ 4) ∧
    (∀ a, s = "bromine" → r.bromine = some a → 4 ≤ a → a ≤ 6 →
      ∀ c ∈ calculateCorrections r v s, c.order ≠ 4) ∧
    (∀ a, r.cyanuricAcid = some a → 30 ≤ a → a ≤ 50 →
      ∀ c ∈ calculateCorrections r v s, c.order ≠ 5) := by
  refine ⟨?_, ?_, ?_, ?_, ?_, ?_⟩
  · intro a ha g1 g2 c hc
    rw [calculateCorrections_eq, stepAlkalinity_ok ha g1 g2] at hc
    simp only [List.nil_append, List.mem_append] at hc
    rcases hc with ((h | h) | h) | h
    · rw [order_of_mem_stepPH h]; norm_num
    · rw [order_of_mem_stepHardness h]; norm_num
    · rw [order_of_mem_stepSanitizer h]; norm_num
    · rw [order_of_mem_stepCYA h]; norm_num
  · intro a ha g1 g2 c hc
    rw [calculateCorrections_eq, stepPH_ok ha g1 g2] at hc
    simp only [List.append_nil, List.nil_append, List.mem_append] at hc
    rcases hc with ((h | h) | h) | h
    · rw [order_of_mem_stepAlkalinity h]; norm_num
    · rw [order_of_mem_stepHardness h]; norm_num
    · rw [order_of_mem_stepSanitizer h]; norm_num
    · rw [order_of_mem_stepCYA h]; norm_num
  · intro a ha g1 g2 c hc
    rw [calculateCorrections_eq, stepHardness_ok ha g1 g2] at hc
    simp only [List.append_nil, List.nil_append, List.mem_append] at hc
    rcases hc with ((h | h) | h) | h
    · rw [order_of_mem_stepAlkalinity h]; norm_num
    · rw [order_of_mem_stepPH h]; norm_num
    · rw [order_of_mem_stepSanitizer h]; norm_num
    · rw [order_of_mem_stepCYA h]; norm_num
  · intro a hs ha g1 g2 c hc
    rw [calculateCorrections_eq, stepSanitizer_chlorine_ok hs ha g1 g2] at hc
    simp only [List.append_nil, List.nil_append, List.mem_append] at hc
    rcases hc with ((h | h) | h) | h
    · rw [order_of_mem_stepAlkalinity h]; norm_num
    · rw [order_of_mem_stepPH h]; norm_num
    · rw [order_of_mem_stepHardness h]; norm_num
    · rw [order_of_mem_stepCYA h]; norm_num
  · intro a hs ha g1 g2 c hc
    subst hs
    rw [calculateCorrections_eq, stepSanitizer_bromine_ok ha g1 g2] at hc
    simp only [List.append_nil, List.nil_append, List.mem_append] at hc
    rcases hc with ((h | h) | h) | h
    · rw [order_of_mem_stepAlkalinity h]; norm_num
    · rw [order_of_mem_stepPH h]; norm_num
    · rw [order_of_mem_stepHardness h]; norm_num
    · rw [order_of_mem_stepCYA h]; norm_num
  · intro a ha g1 g2 c hc
    rw [calculateCorrections_eq] at hc
    by_cases hch : s = "chlorine"
    · subst hch
      rw [stepCYA_ok ha g1 g2] at hc
      simp only [List.append_nil, List.mem_append] at hc
      rcases hc with ((h | h) | h) | h
      · rw [order_of_mem_stepAlkalinity h]; norm_num
      · rw [order_of_mem_stepPH h]; norm_num
      · rw [order_of_mem_stepHardness h]; norm_num
      · rw [order_of_mem_stepSanitizer h]; norm_num
    · rw [stepCYA_notChlorine hch] at hc
      simp only [List.append_nil, List.mem_append] at hc
      rcases hc with ((h | h) | h) | h
      · rw [order_of_mem_stepAlkalinity h]; norm_num
      · rw [order_of_mem_stepPH h]; norm_num
      · rw [order_of_mem_stepHardness h]; norm_num
      · rw [order_of_mem_stepSanitizer h]; norm_num

/-- A panel sitting exactly on the inclusive ideal-range bounds. -/
def ROK : Readings :=
  { freeChlorine := some 5, bromine := some 4, pH := some 7.8,
    totalAlkalinity := some 80, totalHardness := some 175, cyanuricAcid := some 30 }

theorem c7_inclusive_bounds_witness :
    (∀ c ∈ calculateCorrections ROK 400 ("chlorine"), c.order ≠ 1) ∧
    (∀ c ∈ calculateCorrections ROK 400 ("chlorine"), c.order ≠ 2) ∧
    (∀ c ∈ calculateCorrections ROK 400 ("chlorine"), c.order ≠ 3) ∧
    (∀ c ∈ calculateCorrections ROK 400 ("chlorine"), c.order ≠ 4) ∧
    (∀ c ∈ calculateCorrections ROK 400 ("bromine"), c.order ≠ 4) ∧
    (∀ c ∈ calculateCorrections ROK 400 ("chlorine"), c.order ≠ 5) := by
  refine ⟨?_, ?_, ?_, ?_, ?_, ?_⟩
  · exact (c7_inclusive_bounds ROK 400 ("chlorine")).1 80 rfl (by norm_num) (by norm_num)
  · exact (c7_inclusive_bounds ROK 400 ("chlorine")).2.1 7.8 rfl (by norm_num) (by norm_num)
  · exact (c7_inclusive_bounds ROK 400 ("chlorine")).2.2.1 175 rfl (by norm_num) (by norm_num)
  · exact (c7_inclusive_bounds ROK 400 ("chlorine")).2.2.2.1 5 (by decide) rfl
      (by norm_num) (by norm_num)
  · exact (c7_inclusive_bounds ROK 400 ("bromine")).2.2.2.2.1 4 rfl rfl
      (by norm_num) (by norm_num)
  · exact (c7_inclusive_bounds ROK 400 ("chlorine")).2.2.2.2.2 30 rfl
      (by norm_num) (by norm_num)

/-! ### C10: unrecognized sanitizer types -/

theorem param_of_mem_stepAlkalinity {r : Readings} {sc : ℚ} {c : Correction}
    (h : c ∈ stepAlkalinity r sc) : c.parameter = "Total Alkalinity" := by
  unfold stepAlkalinity at h
  dsimp only at h
  split at h
  · simp at h
  · split_ifs at h <;> simp_all

theorem param_of_mem_stepPH {r : Readings} {sc : ℚ} {c : Correction}
    (h : c ∈ stepPH r sc) : c.parameter = "pH" := by
  unfold stepPH at h
  dsimp only at h
  split at h
  · simp at h
  · split_ifs at h <;> simp_all

theorem param_of_mem_stepHardness {r : Readings} {sc : ℚ} {c : Correction}
    (h : c ∈ stepHardness r sc) : c.parameter = "Calcium Hardness" := by
  unfold stepHardness at h
  dsimp only at h
  split at h
  · simp at h
  · split_ifs at h <;> simp_all

theorem param_of_mem_stepSanitizer_chlorine {r : Readings} {sc : ℚ} {s : String}
    {c : Correction} (hs : s ≠ "bromine") (h : c ∈ stepSanitizer r sc s) :
    c.parameter = "Free Chlorine" := by
  unfold stepSanitizer at h
  simp only [if_neg hs] at h
  split at h
  · simp at h
  · split_ifs at h <;> simp_all [pFreeChlorine]

/-- Dropping the stabilizer reading from a panel. -/
def clearCYA (r : Readings) : Readings := { r with cyanuricAcid := none }

/-- C10: a sanitizer type other than "bromine" is treated as chlorine
for the sanitizer tier, and the Cyanuric Acid tier fires only for the
exact string "chlorine": an unrecognized sanitizer type behaves exactly
like chlorine on a panel without a stabilizer reading, and never emits a
Cyanuric Acid correction. -/
theorem c10_unrecognized_sanitizer (r : Readings) (v : ℚ) (s : String)
    (hb : s ≠ "bromine") (hc : s ≠ "chlorine") :
    calculateCorrections r v s = calculateCorrections (clearCYA r) v ("chlorine") ∧
    ∀ c ∈ calculateCorrections r v s, c.parameter ≠ "Cyanuric Acid" := by
  have hcb : ("chlorine" : String) ≠ "bromine" := by decide
  constructor
  · rw [calculateCorrections_eq, calculateCorrections_eq]
    have e1 : stepAlkalinity (clearCYA r) (v / 10000) = stepAlkalinity r (v / 10000) := rfl
    have e2 : stepPH (clearCYA r) (v / 10000) = stepPH r (v / 10000) := rfl
    have e3 : stepHardness (clearCYA r) (v / 10000) = stepHardness r (v / 10000) := rfl
    have e4 : stepSanitizer r (v / 10000) s =
        stepSanitizer (clearCYA r) (v / 10000) ("chlorine") := by
      unfold stepSanitizer
      simp only [if_neg hb, if_neg hcb]
      rfl
    have e5 : stepCYA r (v / 10000) s = stepCYA (clearCYA r) (v / 10000) ("chlorine") := by
      rw [stepCYA_notChlorine hc, stepCYA_none rfl]
    rw [e1, e2, e3, e4, e5]
  · intro c hcm
    rw [calculateCorrections_eq] at hcm
    simp only [List.mem_append] at hcm
    rcases hcm with (((h | h) | h) | h) | h
    · rw [param_of_mem_stepAlkalinity h]; decide
    · rw [param_of_mem_stepPH h]; decide
    · rw [param_of_mem_stepHardness h]; decide
    · rw [param_of_mem_stepSanitizer_chlorine hb h]; decide
    · rw [stepCYA_notChlorine hc] at h; simp at h

theorem c10_unrecognized_sanitizer_witness :
    (calculateCorrections RW 400 ("saltwater") =
      calculateCorrections (clearCYA RW) 400 ("chlorine")) ∧
    ∀ c ∈ calculateCorrections RW 400 ("saltwater"), c.parameter ≠ "Cyanuric Acid" :=
  c10_unrecognized_sanitizer RW 400 ("saltwater") (by decide) (by decide)

/-! ## colorChart.js: reference charts and Lab-space matching

The JS floating-point arithmetic is modeled over ℝ.  `Math.cbrt` is
applied only to arguments above `0.008856 > 0`, where it agrees with
`t ^ (1/3 : ℝ)`. -/

/-- A CIELAB triple as returned by `rgbToLab`. -/
structure Lab where
  l : ℝ
  a : ℝ
  b : ℝ

/-- The sRGB `linearize` helper inside `rgbToLab`. -/
noncomputable def linearize (c : ℝ) : ℝ :=
  if c > 0.04045 then ((c + 0.055) / 1.055) ^ (2.4 : ℝ) else c / 12.92

/-- The XYZ-to-Lab `f` helper inside `rgbToLab`; its `Math.cbrt` branch
is taken only for positive arguments, where cbrt is `rpow (1/3)`. -/
noncomputable def labF (t : ℝ) : ℝ :=
  if t > 0.008856 then t ^ ((1 : ℝ) / 3) else t * 7.787 + 16 / 116

/-- `rgbToLab(r, g, b)` on channel values already normalized to `[0,1]`. -/
noncomputable def rgbToLab (r g b : ℝ) : Lab :=
  let rL := linearize r
  let gL := linearize g
  let bL := linearize b
  let x := rL * 0.4124564 + gL * 0.3575761 + bL * 0.1804375
  let y := rL * 0.2126729 + gL * 0.7151522 + bL * 0.0721750
  let z := rL * 0.0193339 + gL * 0.1191920 + bL * 0.9503041
  let xRef : ℝ := 0.95047
  let yRef : ℝ := 1.0
  let zRef : ℝ := 1.08883
  let fx := labF (x / xRef)
  let fy := labF (y / yRef)
  let fz := labF (z / zRef)
  { l := 116 * fy - 16, a := 500 * (fx - fy), b := 200 * (fy - fz) }

/-- CIE76 `deltaE76`: Euclidean distance in Lab space. -/
noncomputable def deltaE76 (lab1 lab2 : Lab) : ℝ :=
  let dl := lab1.l - lab2.l
  let da := lab1.a - lab2.a
  let db := lab1.b - lab2.b
  Real.sqrt (dl * dl + da * da + db * db)

/-- One calibration point `{ value, r, g, b }` of a reference chart. -/
structure RefColor where
  value : ℚ
  r : ℕ
  g : ℕ
  b : ℕ
deriving DecidableEq, Repr

/-- One chart of `COLOR_CHARTS`. -/
structure Chart where
  name : String
  key : String
  colors : List RefColor
deriving DecidableEq, Repr

def freeChlorineChart : Chart :=
  ⟨"Free Chlorine", "freeChlorine",
   [⟨0, 255, 248, 240⟩, ⟨1, 255, 210, 210⟩, ⟨2, 255, 170, 170⟩,
    ⟨3, 245, 130, 145⟩, ⟨5, 220, 80, 110⟩, ⟨10, 190, 40, 80⟩]⟩

def totalChlorineChart : Chart :=
  ⟨"Total Chlorine", "totalChlorine",
   [⟨0, 255, 248, 240⟩, ⟨0.5, 255, 225, 220⟩, ⟨1, 255, 195, 185⟩,
    ⟨2, 250, 150, 135⟩, ⟨5, 225, 95, 80⟩, ⟨10, 195, 55, 40⟩]⟩

def bromineChart : Chart :=
  ⟨"Total Bromine", "bromine",
   [⟨0, 255, 250, 240⟩, ⟨1, 255, 225, 210⟩, ⟨2, 255, 195, 175⟩,
    ⟨4, 245, 145, 125⟩, ⟨10, 220, 90, 70⟩, ⟨20, 185, 50, 35⟩]⟩

def pHChart : Chart :=
  ⟨"pH", "pH",
   [⟨6.4, 235, 200, 65⟩, ⟨6.8, 225, 180, 55⟩, ⟨7.2, 215, 150, 55⟩,
    ⟨7.8, 195, 105, 60⟩, ⟨8.4, 165, 65, 85⟩]⟩

def totalAlkalinityChart : Chart :=
  ⟨"Total Alkalinity", "totalAlkalinity",
   [⟨0, 225, 210, 55⟩, ⟨40, 185, 210, 60⟩, ⟨80, 110, 190, 75⟩,
    ⟨120, 60, 160, 70⟩, ⟨180, 45, 135, 100⟩, ⟨240, 40, 110, 135⟩]⟩

def totalHardnessChart : Chart :=
  ⟨"Calcium Hardness", "totalHardness",
   [⟨0, 55, 170, 135⟩, ⟨100, 75, 120, 180⟩, ⟨200, 110, 90, 170⟩,
    ⟨400, 155, 60, 130⟩, ⟨800, 200, 45, 80⟩]⟩

def cyanuricAcidChart : Chart :=
  ⟨"Cyanuric Acid", "cyanuricAcid",
   [⟨0, 235, 220, 195⟩, ⟨40, 200, 180, 140⟩, ⟨70, 175, 155, 115⟩,
    ⟨100, 145, 125, 90⟩, ⟨150, 115, 95, 65⟩, ⟨300, 80, 65, 45⟩]⟩

/-- The `COLOR_CHARTS` object: a key-indexed table of charts. -/
def COLOR_CHARTS : List (String × Chart) :=
  [(("freeChlorine"), freeChlorineChart),
   (("totalChlorine"), totalChlorineChart),
   (("bromine"), bromineChart),
   (("pH"), pHChart),
   (("totalAlkalinity"), totalAlkalinityChart),
   (("totalHardness"), totalHardnessChart),
   (("cyanuricAcid"), cyanuricAcidChart)]

/-- `COLOR_CHARTS[chartKey]` property lookup. -/
def lookupChart (key : String) : Option Chart :=
  (COLOR_CHARTS.find? (fun p => p.1 == key)).map Prod.snd

/-- Lab value of a reference point: `rgbToLab(ref.r/255, ref.g/255,
ref.b/255)`, as computed for each entry of `chart.colors`. -/
noncomputable def refLab (ref : RefColor) : Lab :=
  rgbToLab ((ref.r : ℝ) / 255) ((ref.g : ℝ) / 255) ((ref.b : ℝ) / 255)

/-- Result record of `matchColor`. -/
structure MatchResult where
  value : ℚ
  deltaE : ℝ
  refColor : RefColor

/-- The body of `matchColor`'s loop.  The JS starts from
`bestMatch = null, bestDeltaE = Infinity`, so the first reference always
wins the `dE < bestDeltaE` test; the accumulator is `none` exactly while
no reference has been visited. -/
noncomputable def bestStep (sampledLab : Lab) (acc : Option (RefColor × ℝ))
    (ref : RefColor) : Option (RefColor × ℝ) :=
  let dE := deltaE76 sampledLab (refLab ref)
  match acc with
  | none => some (ref, dE)
  | some (best, bestDE) => if dE < bestDE then some (ref, dE) else some (best, bestDE)

/-- `matchColor(sampledR, sampledG, sampledB, chartKey)`.  On an empty
chart the JS would dereference `null`; every chart has ≥ 5 points, so
that branch (modeled as `none`) is unreachable. -/
noncomputable def matchColor (sampledR sampledG sampledB : ℝ) (chartKey : String) :
    Option MatchResult :=
  match lookupChart chartKey with
  | none => none
  | some chart =>
    let sampledLab := rgbToLab (sampledR / 255) (sampledG / 255) (sampledB / 255)
    match chart.colors.foldl (bestStep sampledLab) none with
    | none => none
    | some (best, bestDE) => some ⟨best.value, bestDE, best⟩

/-- Result record of `matchColorInterpolated`. -/
structure InterpResult where
  value : ℝ
  deltaE : ℝ
  confidence : String

/-- The confidence step function of `matchColorInterpolated`:
`m1.deltaE < 10 ? 'high' : m1.deltaE < 25 ? 'medium' : 'low'`. -/
noncomputable def confidenceOf (d : ℝ) : String :=
  if d < 10 then "high" else if d < 25 then "medium" else "low"

/-- JS `Math.round` over ℝ (round half toward positive infinity). -/
noncomputable def jsRoundR (x : ℝ) : ℝ := (⌊x + 1 / 2⌋ : ℤ)

/-- The `{ ref, deltaE }` array built by `matchColorInterpolated` before
sorting. -/
noncomputable def matchEntries (sampledLab : Lab) (chart : Chart) :
    List (RefColor × ℝ) :=
  chart.colors.map (fun ref => (ref, deltaE76 sampledLab (refLab ref)))

/-- The comparator `(a, b) => a.deltaE - b.deltaE`: ascending deltaE. -/
def deLE (a b : RefColor × ℝ) : Prop := a.2 ≤ b.2

noncomputable instance : DecidableRel deLE := fun a b => Real.decidableLE a.2 b.2

instance : IsTotal (RefColor × ℝ) deLE := ⟨fun a b => le_total a.2 b.2⟩

instance : IsTrans (RefColor × ℝ) deLE := ⟨fun _ _ _ hab hbc => le_trans hab hbc⟩

/-- `matchColorInterpolated(sampledR, sampledG, sampledB, chartKey)`.
JS `Array.prototype.sort` is stable; it is modeled by insertion sort.
On a chart with fewer than two points the JS would read a field of
`undefined` past the near-exact-match shortcut; those branches (modeled
as `none`) are unreachable since every chart has ≥ 5 points. -/
noncomputable def matchColorInterpolated (sampledR sampledG sampledB : ℝ)
    (chartKey : String) : Option InterpResult :=
  match lookupChart chartKey with
  | none => none
  | some chart =>
    let sampledLab := rgbToLab (sampledR / 255) (sampledG / 255) (sampledB / 255)
    match List.insertionSort deLE (matchEntries sampledLab chart) with
    | [] => none
    | m1 :: rest =>
      if m1.2 < 1 then some ⟨(m1.1.value : ℝ), m1.2, ("high")⟩
      else
        match rest with
        | [] => none
        | m2 :: _ =>
          let w1 := 1 / max m1.2 0.001
          let w2 := 1 / max m2.2 0.001
          let value := ((m1.1.value : ℝ) * w1 + (m2.1.value : ℝ) * w2) / (w1 + w2)
          some ⟨jsRoundR (value * 10) / 10, m1.2, confidenceOf m1.2⟩

/-! ### Metric facts about `deltaE76` -/

theorem deltaE76_self (lab : Lab) : deltaE76 lab lab = 0 := by
  unfold deltaE76
  simp

theorem deltaE76_nonneg (a b : Lab) : 0 ≤ deltaE76 a b := Real.sqrt_nonneg _

theorem deltaE76_eq_zero {a b : Lab} (h : deltaE76 a b = 0) : a = b := by
  unfold deltaE76 at h
  dsimp only at h
  have h0 := Real.sqrt_eq_zero'.mp h
  have e1 : (a.l - b.l) * (a.l - b.l) = 0 := by
    nlinarith [mul_self_nonneg (a.l - b.l), mul_self_nonneg (a.a - b.a),
      mul_self_nonneg (a.b - b.b)]
  have e2 : (a.a - b.a) * (a.a - b.a) = 0 := by
    nlinarith [mul_self_nonneg (a.l - b.l), mul_self_nonneg (a.a - b.a),
      mul_self_nonneg (a.b - b.b)]
  have e3 : (a.b - b.b) * (a.b - b.b) = 0 := by
    nlinarith [mul_self_nonneg (a.l - b.l), mul_self_nonneg (a.a - b.a),
      mul_self_nonneg (a.b - b.b)]
  have f1 := mul_self_eq_zero.mp e1
  have f2 := mul_self_eq_zero.mp e2
  have f3 := mul_self_eq_zero.mp e3
  cases a
  cases b
  rw [Lab.mk.injEq]
  refine ⟨by linarith [f1], by linarith [f2], by linarith [f3]⟩

/-! ### Strict monotonicity of the two transfer helpers

The only non-rational steps are the rpow branches; comparisons across
the piecewise breakpoints reduce to exact rational inequalities via
raising both sides to the 5th (resp. 3rd) power. -/

theorem linearize_gap :
    (0.04045 / 12.92 : ℝ) < ((0.04045 + 0.055) / 1.055) ^ (2.4 : ℝ) := by
  have hx : (0 : ℝ) ≤ (0.04045 + 0.055) / 1.055 := by norm_num
  have key : (((0.04045 + 0.055) / 1.055 : ℝ) ^ (2.4 : ℝ)) ^ (5 : ℕ) =
      ((0.04045 + 0.055) / 1.055 : ℝ) ^ (12 : ℕ) := by
    rw [← Real.rpow_natCast (((0.04045 + 0.055) / 1.055 : ℝ) ^ (2.4 : ℝ)) 5,
      ← Real.rpow_mul hx, ← Real.rpow_natCast ((0.04045 + 0.055) / 1.055 : ℝ) 12]
    norm_num
  have h5 : ((0.04045 / 12.92 : ℝ)) ^ (5 : ℕ) <
      (((0.04045 + 0.055) / 1.055 : ℝ) ^ (2.4 : ℝ)) ^ (5 : ℕ) := by
    rw [key]
    norm_num
  exact lt_of_pow_lt_pow_left 5 (Real.rpow_nonneg hx _) h5

theorem linearize_lt {u v : ℝ} (hu : 0 ≤ u) (huv : u < v) :
    linearize u < linearize v := by
  unfold linearize
  split_ifs with h1 h2 h2
  · exact Real.rpow_lt_rpow (div_nonneg (by linarith) (by norm_num))
      (div_lt_div_of_pos_right (by linarith) (by norm_num)) (by norm_num)
  · linarith
  · calc u / 12.92 ≤ 0.04045 / 12.92 :=
        (div_le_div_right (by norm_num)).mpr (by linarith)
      _ < ((0.04045 + 0.055) / 1.055 : ℝ) ^ (2.4 : ℝ) := linearize_gap
      _ ≤ ((v + 0.055) / 1.055 : ℝ) ^ (2.4 : ℝ) :=
        Real.rpow_le_rpow (by norm_num)
          ((div_le_div_right (by norm_num)).mpr (by linarith)) (by norm_num)
  · exact div_lt_div_of_pos_right huv (by norm_num)

theorem linearize_nonneg {c : ℝ} (hc : 0 ≤ c) : 0 ≤ linearize c := by
  unfold linearize
  split_ifs with h
  · exact Real.rpow_nonneg (div_nonneg (by linarith) (by norm_num)) _
  · positivity

theorem linearize_injOn {u v : ℝ} (hu : 0 ≤ u) (hv : 0 ≤ v)
    (h : linearize u = linearize v) : u = v := by
  rcases lt_trichotomy u v with hlt | he | hlt
  · exact absurd h (ne_of_lt (linearize_lt hu hlt))
  · exact he
  · exact absurd h.symm (ne_of_lt (linearize_lt hv hlt))

theorem labF_gap :
    (0.008856 * 7.787 + 16 / 116 : ℝ) < (0.008856 : ℝ) ^ ((1 : ℝ) / 3) := by
  have hx : (0 : ℝ) ≤ 0.008856 := by norm_num
  have key : ((0.008856 : ℝ) ^ ((1 : ℝ) / 3)) ^ (3 : ℕ) = (0.008856 : ℝ) := by
    rw [← Real.rpow_natCast ((0.008856 : ℝ) ^ ((1 : ℝ) / 3)) 3, ← Real.rpow_mul hx]
    norm_num
  have h3 : ((0.008856 * 7.787 + 16 / 116 : ℝ)) ^ (3 : ℕ) <
      ((0.008856 : ℝ) ^ ((1 : ℝ) / 3)) ^ (3 : ℕ) := by
    rw [key]
    norm_num
  exact lt_of_pow_lt_pow_left 3 (Real.rpow_nonneg hx _) h3

theorem labF_lt {u v : ℝ} (hu : 0 ≤ u) (huv : u < v) : labF u < labF v := by
  unfold labF
  split_ifs with h1 h2 h2
  · exact Real.rpow_lt_rpow hu huv (by norm_num)
  · linarith
  · have h3 : u ≤ 0.008856 := by linarith
    have h4 := mul_le_mul_of_nonneg_right h3 (show (0 : ℝ) ≤ 7.787 from by norm_num)
    calc u * 7.787 + 16 / 116 ≤ 0.008856 * 7.787 + 16 / 116 := by linarith [h4]
      _ < (0.008856 : ℝ) ^ ((1 : ℝ) / 3) := labF_gap
      _ ≤ v ^ ((1 : ℝ) / 3) := Real.rpow_le_rpow (by norm_num) (by linarith) (by norm_num)
  · have h4 := mul_lt_mul_of_pos_right huv (show (0 : ℝ) < 7.787 from by norm_num)
    linarith [h4]

theorem labF_injOn {u v : ℝ} (hu : 0 ≤ u) (hv : 0 ≤ v)
    (h : labF u = labF v) : u = v := by
  rcases lt_trichotomy u v with hlt | he | hlt
  · exact absurd h (ne_of_lt (labF_lt hu hlt))
  · exact he
  · exact absurd h.symm (ne_of_lt (labF_lt hv hlt))

/-- `rgbToLab` is injective on nonnegative channel triples: the gamma
curve and the Lab nonlinearity are strictly monotone, the D65 matrix is
invertible, and the final `(L, a, b)` packaging is invertible. -/
theorem rgbToLab_inj {r g b r2 g2 b2 : ℝ} (hr : 0 ≤ r) (hg : 0 ≤ g) (hb : 0 ≤ b)
    (hr2 : 0 ≤ r2) (hg2 : 0 ≤ g2) (hb2 : 0 ≤ b2)
    (h : rgbToLab r g b = rgbToLab r2 g2 b2) : r = r2 ∧ g = g2 ∧ b = b2 := by
  have nr := linearize_nonneg hr
  have ng := linearize_nonneg hg
  have nb := linearize_nonneg hb
  have nr2 := linearize_nonneg hr2
  have ng2 := linearize_nonneg hg2
  have nb2 := linearize_nonneg hb2
  unfold rgbToLab at h
  dsimp only at h
  rw [Lab.mk.injEq] at h
  obtain ⟨hL, hA, hB⟩ := h
  have hfy : labF ((linearize r * 0.2126729 + linearize g * 0.7151522 +
      linearize b * 0.0721750) / 1.0) =
      labF ((linearize r2 * 0.2126729 + linearize g2 * 0.7151522 +
      linearize b2 * 0.0721750) / 1.0) := by linarith
  have hfx : labF ((linearize r * 0.4124564 + linearize g * 0.3575761 +
      linearize b * 0.1804375) / 0.95047) =
      labF ((linearize r2 * 0.4124564 + linearize g2 * 0.3575761 +
      linearize b2 * 0.1804375) / 0.95047) := by linarith
  have hfz : labF ((linearize r * 0.0193339 + linearize g * 0.1191920 +
      linearize b * 0.9503041) / 1.08883) =
      labF ((linearize r2 * 0.0193339 + linearize g2 * 0.1191920 +
      linearize b2 * 0.9503041) / 1.08883) := by linarith
  have comb : ∀ lr lg lb : ℝ, 0 ≤ lr → 0 ≤ lg → 0 ≤ lb → ∀ den : ℝ, 0 < den →
      ∀ c1 c2 c3 : ℝ, 0 ≤ c1 → 0 ≤ c2 → 0 ≤ c3 →
      0 ≤ (lr * c1 + lg * c2 + lb * c3) / den :=
    fun lr lg lb h1 h2 h3 den hden c1 c2 c3 hc1 hc2 hc3 =>
      div_nonneg
        (add_nonneg (add_nonneg (mul_nonneg h1 hc1) (mul_nonneg h2 hc2))
          (mul_nonneg h3 hc3)) hden.le
  have hy := labF_injOn
    (comb _ _ _ nr ng nb _ (by norm_num) _ _ _ (by norm_num) (by norm_num) (by norm_num))
    (comb _ _ _ nr2 ng2 nb2 _ (by norm_num) _ _ _ (by norm_num) (by norm_num) (by norm_num))
    hfy
  have hx := labF_injOn
    (comb _ _ _ nr ng nb _ (by norm_num) _ _ _ (by norm_num) (by norm_num) (by norm_num))
    (comb _ _ _ nr2 ng2 nb2 _ (by norm_num) _ _ _ (by norm_num) (by norm_num) (by norm_num))
    hfx
  have hz := labF_injOn
    (comb _ _ _ nr ng nb _ (by norm_num) _ _ _ (by norm_num) (by norm_num) (by norm_num))
    (comb _ _ _ nr2 ng2 nb2 _ (by norm_num) _ _ _ (by norm_num) (by norm_num) (by norm_num))
    hfz
  have er : linearize r = linearize r2 := by
    linear_combination (637774290335855489400 / 207072592935094650199 : ℝ) * hx
      + (-318299327392010000000 / 207072592935094650199 : ℝ) * hy
      + (-112402338178818100000 / 207072592935094650199 : ℝ) * hz
  have eg : linearize g = linearize g2 := by
    linear_combination (-190767412363730803300 / 207072592935094650199 : ℝ) * hx
      + (388470447409990000000 / 207072592935094650199 : ℝ) * hy
      + (9369519041790712500 / 207072592935094650199 : ℝ) * hz
  have eb : linearize b = linearize b2 := by
    linear_combination (10951531265132293400 / 207072592935094650199 : ℝ) * hx
      + (-42248162669010000000 / 207072592935094650199 : ℝ) * hy
      + (238369228563788623700 / 207072592935094650199 : ℝ) * hz
  exact ⟨linearize_injOn hr hr2 er, linearize_injOn hg hg2 eg, linearize_injOn hb hb2 eb⟩

/-! ### The nearest-match fold -/

theorem foldl_bestStep_keep (sLab : Lab) (p : RefColor) :
    ∀ l : List RefColor, (∀ q ∈ l, 0 ≤ deltaE76 sLab (refLab q)) →
      l.foldl (bestStep sLab) (some (p, 0)) = some (p, 0) := by
  intro l
  induction l with
  | nil => intro _; rfl
  | cons q t ih =>
    intro h
    have hq := h q (List.mem_cons_self q t)
    have hstep : bestStep sLab (some (p, 0)) q = some (p, 0) := by
      unfold bestStep
      dsimp only
      rw [if_neg (not_lt.mpr hq)]
    rw [List.foldl_cons, hstep]
    exact ih (fun x hx => h x (List.mem_cons_of_mem q hx))

theorem foldl_bestStep_pos (sLab : Lab) (p : RefColor) :
    ∀ (l : List RefColor) (q0 : RefColor) (d0 : ℝ), 0 < d0 →
      p ∈ l → deltaE76 sLab (refLab p) = 0 →
      (∀ q ∈ l, 0 ≤ deltaE76 sLab (refLab q)) →
      (∀ q ∈ l, deltaE76 sLab (refLab q) = 0 → q = p) →
      l.foldl (bestStep sLab) (some (q0, d0)) = some (p, 0) := by
  intro l
  induction l with
  | nil => intro q0 d0 _ hp _ _ _; exact absurd hp (List.not_mem_nil p)
  | cons q t ih =>
    intro q0 d0 hd0 hp hp0 hnn huniq
    by_cases hqp : q = p
    · subst hqp
      have hstep : bestStep sLab (some (q0, d0)) q = some (q, 0) := by
        unfold bestStep
        dsimp only
        rw [hp0, if_pos hd0]
      rw [List.foldl_cons, hstep]
      exact foldl_bestStep_keep sLab q t
        (fun x hx => hnn x (List.mem_cons_of_mem q hx))
    · have hpt : p ∈ t := by
        rcases List.mem_cons.mp hp with h | h
        · exact absurd h.symm hqp
        · exact h
      have hq0 : 0 < deltaE76 sLab (refLab q) :=
        lt_of_le_of_ne (hnn q (List.mem_cons_self q t))
          (fun he => hqp (huniq q (List.mem_cons_self q t) he.symm))
      have hstep : bestStep sLab (some (q0, d0)) q =
          some (q, deltaE76 sLab (refLab q)) ∨
          bestStep sLab (some (q0, d0)) q = some (q0, d0) := by
        unfold bestStep
        dsimp only
        split_ifs
        · left; rfl
        · right; rfl
      have hnt := fun x hx => hnn x (List.mem_cons_of_mem q hx)
      have hut := fun x hx => huniq x (List.mem_cons_of_mem q hx)
      rcases hstep with h | h
      · rw [List.foldl_cons, h]
        exact ih q (deltaE76 sLab (refLab q)) hq0 hpt hp0 hnt hut
      · rw [List.foldl_cons, h]
        exact ih q0 d0 hd0 hpt hp0 hnt hut

theorem foldl_bestStep_main (sLab : Lab) (p : RefColor) (l : List RefColor)
    (hp : p ∈ l) (hp0 : deltaE76 sLab (refLab p) = 0)
    (hnn : ∀ q ∈ l, 0 ≤ deltaE76 sLab (refLab q))
    (huniq : ∀ q ∈ l, deltaE76 sLab (refLab q) = 0 → q = p) :
    l.foldl (bestStep sLab) none = some (p, 0) := by
  cases l with
  | nil => cases hp
  | cons q t =>
    have h1 : bestStep sLab none q = some (q, deltaE76 sLab (refLab q)) := rfl
    rw [List.foldl_cons, h1]
    by_cases hqp : q = p
    · subst hqp
      rw [hp0]
      exact foldl_bestStep_keep sLab q t
        (fun x hx => hnn x (List.mem_cons_of_mem q hx))
    · have hpt : p ∈ t := by
        rcases List.mem_cons.mp hp with h | h
        · exact absurd h.symm hqp
        · exact h
      have hq0 : 0 < deltaE76 sLab (refLab q) :=
        lt_of_le_of_ne (hnn q (List.mem_cons_self q t))
          (fun he => hqp (huniq q (List.mem_cons_self q t) he.symm))
      exact foldl_bestStep_pos sLab p t q (deltaE76 sLab (refLab q)) hq0 hpt hp0
        (fun x hx => hnn x (List.mem_cons_of_mem q hx))
        (fun x hx => huniq x (List.mem_cons_of_mem q hx))

/-! ### Chart-level facts -/

/-- Every chart lists pairwise-distinct RGB triples. -/
def chartRGBDistinct (c : Chart) : Prop :=
  c.colors.Pairwise (fun a b => (a.r, a.g, a.b) ≠ (b.r, b.g, b.b))

instance (c : Chart) : Decidable (chartRGBDistinct c) := by
  unfold chartRGBDistinct
  infer_instance

theorem charts_rgb_distinct : ∀ p ∈ COLOR_CHARTS, chartRGBDistinct p.2 := by decide

theorem chart_mem_of_lookup {k : String} {c : Chart} (h : lookupChart k = some c) :
    ∃ pr ∈ COLOR_CHARTS, pr.2 = c := by
  unfold lookupChart at h
  rcases Option.map_eq_some'.mp h with ⟨pr, hf, he⟩
  exact ⟨pr, List.mem_of_find?_eq_some hf, he⟩

theorem lookup_rgb_distinct {k : String} {c : Chart} (h : lookupChart k = some c) :
    chartRGBDistinct c := by
  rcases chart_mem_of_lookup h with ⟨pr, hm, he⟩
  rw [← he]
  exact charts_rgb_distinct pr hm

theorem rgb_eq_of_pairwise {c : Chart} (hd : chartRGBDistinct c) {q p : RefColor}
    (hq : q ∈ c.colors) (hp : p ∈ c.colors)
    (he : (q.r, q.g, q.b) = (p.r, p.g, p.b)) : q = p := by
  by_contra hne
  have hsym : Symmetric (fun a b : RefColor => (a.r, a.g, a.b) ≠ (b.r, b.g, b.b)) :=
    fun a b hab hba => hab hba.symm
  exact List.Pairwise.forall hsym hd hq hp hne he

/-- Within one chart, the sampled-at-`p` distance vanishes only at `p`
itself: `rgbToLab` is injective and the chart RGB triples are
pairwise distinct. -/
theorem unique_zero {k : String} {c : Chart} (h : lookupChart k = some c)
    {p : RefColor} (hp : p ∈ c.colors) :
    ∀ q ∈ c.colors, deltaE76 (refLab p) (refLab q) = 0 → q = p := by
  intro q hq h0
  have hlab : refLab p = refLab q := deltaE76_eq_zero h0
  unfold refLab at hlab
  have hchan := rgbToLab_inj
    (by positivity) (by positivity) (by positivity)
    (by positivity) (by positivity) (by positivity) hlab
  obtain ⟨h1, h2, h3⟩ := hchan
  have e1 : p.r = q.r := by
    have hc : ((p.r : ℝ)) = q.r := by linarith
    exact_mod_cast hc
  have e2 : p.g = q.g := by
    have hc : ((p.g : ℝ)) = q.g := by linarith
    exact_mod_cast hc
  have e3 : p.b = q.b := by
    have hc : ((p.b : ℝ)) = q.b := by linarith
    exact_mod_cast hc
  exact rgb_eq_of_pairwise (lookup_rgb_distinct h) hq hp (by rw [e1, e2, e3])

/-! ### Head of the sorted deltaE list -/

theorem mem_matchEntries {sLab : Lab} {chart : Chart} {e : RefColor × ℝ} :
    e ∈ matchEntries sLab chart ↔
      ∃ q ∈ chart.colors, e = (q, deltaE76 sLab (refLab q)) := by
  unfold matchEntries
  simp only [List.mem_map]
  constructor
  · rintro ⟨q, hq, he⟩
    exact ⟨q, hq, he.symm⟩
  · rintro ⟨q, hq, he⟩
    exact ⟨q, hq, he.symm⟩

theorem interp_head {sLab : Lab} {chart : Chart} {m1 : RefColor × ℝ}
    {rest : List (RefColor × ℝ)}
    (h : List.insertionSort deLE (matchEntries sLab chart) = m1 :: rest) :
    m1 ∈ matchEntries sLab chart ∧ ∀ e ∈ matchEntries sLab chart, m1.2 ≤ e.2 := by
  have hperm := List.perm_insertionSort deLE (matchEntries sLab chart)
  rw [h] at hperm
  have hsort := List.sorted_insertionSort deLE (matchEntries sLab chart)
  rw [h] at hsort
  constructor
  · exact hperm.mem_iff.mp (List.mem_cons_self m1 rest)
  · intro e he
    rcases List.mem_cons.mp (hperm.mem_iff.mpr he) with h1 | h1
    · rw [h1]
    · exact (List.sorted_cons.mp hsort).1 e h1

/-! ### C1: round-trip identity at calibration points -/

/-- C1: sampling exactly a calibration point's RGB returns that point's
value with deltaE exactly 0, for every chart and point; in particular
rgb(255, 248, 240) on the freeChlorine chart matches value 0 with
deltaE 0 and confidence "high". -/
theorem c1_round_trip :
    (∀ (key : String) (chart : Chart) (p : RefColor),
      lookupChart key = some chart → p ∈ chart.colors →
      matchColor (p.r : ℝ) (p.g : ℝ) (p.b : ℝ) key = some ⟨p.value, 0, p⟩) ∧
    matchColorInterpolated 255 248 240 ("freeChlorine") =
      some ⟨0, 0, ("high")⟩ := by
  constructor
  · intro key chart p hk hp
    unfold matchColor
    rw [hk]
    dsimp only
    have hfold : chart.colors.foldl
        (bestStep (rgbToLab ((p.r : ℝ) / 255) ((p.g : ℝ) / 255) ((p.b : ℝ) / 255)))
        none = some (p, 0) := by
      apply foldl_bestStep_main
      · exact hp
      · exact deltaE76_self (refLab p)
      · intro q _
        exact deltaE76_nonneg _ _
      · intro q hq h0
        exact unique_zero hk hp q hq h0
    rw [hfold]
  · have hk : lookupChart ("freeChlorine") = some freeChlorineChart := rfl
    have hp0c : (⟨0, 255, 248, 240⟩ : RefColor) ∈ freeChlorineChart.colors := by
      simp [freeChlorineChart]
    have hlab : refLab (⟨0, 255, 248, 240⟩ : RefColor) =
        rgbToLab ((255 : ℝ) / 255) ((248 : ℝ) / 255) ((240 : ℝ) / 255) := by
      unfold refLab
      norm_num
    unfold matchColorInterpolated
    rw [hk]
    dsimp only
    rcases hsort : List.insertionSort deLE
        (matchEntries (rgbToLab ((255 : ℝ) / 255) ((248 : ℝ) / 255) ((240 : ℝ) / 255))
          freeChlorineChart) with _ | ⟨m1, rest⟩
    · exfalso
      have hperm := List.perm_insertionSort deLE
        (matchEntries (rgbToLab ((255 : ℝ) / 255) ((248 : ℝ) / 255) ((240 : ℝ) / 255))
          freeChlorineChart)
      rw [hsort] at hperm
      have := hperm.length_eq
      simp [matchEntries, freeChlorineChart] at this
    · obtain ⟨hm1, hmin⟩ := interp_head hsort
      have hz : deltaE76
          (rgbToLab ((255 : ℝ) / 255) ((248 : ℝ) / 255) ((240 : ℝ) / 255))
          (refLab (⟨0, 255, 248, 240⟩ : RefColor)) = 0 := by
        rw [hlab]
        exact deltaE76_self _
      have hpe : ((⟨0, 255, 248, 240⟩ : RefColor),
          deltaE76 (rgbToLab ((255 : ℝ) / 255) ((248 : ℝ) / 255) ((240 : ℝ) / 255))
            (refLab (⟨0, 255, 248, 240⟩ : RefColor))) ∈
          matchEntries (rgbToLab ((255 : ℝ) / 255) ((248 : ℝ) / 255) ((240 : ℝ) / 255))
            freeChlorineChart :=
        List.mem_map_of_mem _ hp0c
      have hm1le : m1.2 ≤ 0 := by
        have := hmin _ hpe
        rw [hz] at this
        exact this
      rcases mem_matchEntries.mp hm1 with ⟨q, hq, he⟩
      have hge : 0 ≤ m1.2 := by
        rw [he]
        exact deltaE76_nonneg _ _
      have hm10 : m1.2 = 0 := le_antisymm hm1le hge
      have hq0 : deltaE76
          (rgbToLab ((255 : ℝ) / 255) ((248 : ℝ) / 255) ((240 : ℝ) / 255))
          (refLab q) = 0 := by
        rw [he] at hm10
        exact hm10
      have hqp : q = ⟨0, 255, 248, 240⟩ := by
        apply unique_zero hk hp0c q hq
        rw [hlab]
        exact hq0
      dsimp only
      rw [if_pos (by rw [hm10]; norm_num)]
      rw [he, hqp, hz]
      norm_num

/-- C1 instantiated at the freeChlorine chart's zero point. -/
theorem c1_round_trip_witness :
    matchColor 255 248 240 ("freeChlorine") =
      some ⟨0, 0, ⟨0, 255, 248, 240⟩⟩ := by
  have h := c1_round_trip.1 ("freeChlorine") freeChlorineChart ⟨0, 255, 248, 240⟩
    rfl (by simp [freeChlorineChart])
  simpa using h

/-! ### A full case analysis of `matchColorInterpolated` -/

theorem interp_cases (sr sg sb : ℝ) {key : String} {chart : Chart} {res : InterpResult}
    (hk : lookupChart key = some chart)
    (hres : matchColorInterpolated sr sg sb key = some res) :
    ∃ m1 rest,
      List.insertionSort deLE
        (matchEntries (rgbToLab (sr / 255) (sg / 255) (sb / 255)) chart) = m1 :: rest ∧
      m1 ∈ matchEntries (rgbToLab (sr / 255) (sg / 255) (sb / 255)) chart ∧
      (∀ e ∈ matchEntries (rgbToLab (sr / 255) (sg / 255) (sb / 255)) chart, m1.2 ≤ e.2) ∧
      res.deltaE = m1.2 ∧
      res.confidence = confidenceOf m1.2 ∧
      ((res.value = ((m1.1.value : ℝ)) ∧ m1.2 < 1) ∨
        (∃ m2 rest2, rest = m2 :: rest2 ∧
          m2 ∈ matchEntries (rgbToLab (sr / 255) (sg / 255) (sb / 255)) chart ∧
          res.value = jsRoundR
            (((m1.1.value : ℝ) * (1 / max m1.2 0.001) +
              (m2.1.value : ℝ) * (1 / max m2.2 0.001)) /
              (1 / max m1.2 0.001 + 1 / max m2.2 0.001) * 10) / 10)) := by
  unfold matchColorInterpolated at hres
  rw [hk] at hres
  dsimp only at hres
  cases hsL : List.insertionSort deLE
      (matchEntries (rgbToLab (sr / 255) (sg / 255) (sb / 255)) chart) with
  | nil => rw [hsL] at hres; simp at hres
  | cons m1 rest =>
    rw [hsL] at hres
    dsimp only at hres
    obtain ⟨hm1, hmin⟩ := interp_head hsL
    by_cases hlt : m1.2 < 1
    · rw [if_pos hlt] at hres
      cases hres
      refine ⟨m1, rest, rfl, hm1, hmin, rfl, ?_, Or.inl ⟨rfl, hlt⟩⟩
      unfold confidenceOf
      rw [if_pos (by linarith)]
    · rw [if_neg hlt] at hres
      cases rest with
      | nil => simp at hres
      | cons m2 rest2 =>
        dsimp only at hres
        cases hres
        have hperm := List.perm_insertionSort deLE
          (matchEntries (rgbToLab (sr / 255) (sg / 255) (sb / 255)) chart)
        rw [hsL] at hperm
        have hm2 : m2 ∈ matchEntries (rgbToLab (sr / 255) (sg / 255) (sb / 255)) chart :=
          hperm.mem_iff.mp (by simp)
        exact ⟨m1, m2 :: rest2, rfl, hm1, hmin, rfl, rfl,
          Or.inr ⟨m2, rest2, rfl, hm2, rfl⟩⟩

/-- Matching at exactly a calibration point takes the near-exact-match
shortcut: the nearest distance is 0. -/
theorem interp_at_point (key : String) (chart : Chart) (p : RefColor)
    (hk : lookupChart key = some chart) (hp : p ∈ chart.colors) :
    matchColorInterpolated (p.r : ℝ) (p.g : ℝ) (p.b : ℝ) key =
      some ⟨((p.value : ℝ)), 0, ("high")⟩ := by
  unfold matchColorInterpolated
  rw [hk]
  dsimp only
  rcases hsort : List.insertionSort deLE
      (matchEntries (rgbToLab ((p.r : ℝ) / 255) ((p.g : ℝ) / 255) ((p.b : ℝ) / 255))
        chart) with _ | ⟨m1, rest⟩
  · exfalso
    have hperm := List.perm_insertionSort deLE
      (matchEntries (rgbToLab ((p.r : ℝ) / 255) ((p.g : ℝ) / 255) ((p.b : ℝ) / 255)) chart)
    rw [hsort] at hperm
    have hlen := hperm.length_eq
    simp [matchEntries] at hlen
    exact (List.ne_nil_of_mem hp) (List.length_eq_zero.mp hlen.symm)
  · obtain ⟨hm1, hmin⟩ := interp_head hsort
    have hz : deltaE76
        (rgbToLab ((p.r : ℝ) / 255) ((p.g : ℝ) / 255) ((p.b : ℝ) / 255))
        (refLab p) = 0 := deltaE76_self (refLab p)
    have hpe : (p, deltaE76
        (rgbToLab ((p.r : ℝ) / 255) ((p.g : ℝ) / 255) ((p.b : ℝ) / 255))
        (refLab p)) ∈
        matchEntries (rgbToLab ((p.r : ℝ) / 255) ((p.g : ℝ) / 255) ((p.b : ℝ) / 255))
          chart :=
      List.mem_map_of_mem _ hp
    have hm1le : m1.2 ≤ 0 := by
      have := hmin _ hpe
      rw [hz] at this
      exact this
    rcases mem_matchEntries.mp hm1 with ⟨q, hq, he⟩
    have hge : 0 ≤ m1.2 := by
      rw [he]
      exact deltaE76_nonneg _ _
    have hm10 : m1.2 = 0 := le_antisymm hm1le hge
    have hq0 : deltaE76
        (rgbToLab ((p.r : ℝ) / 255) ((p.g : ℝ) / 255) ((p.b : ℝ) / 255))
        (refLab q) = 0 := by
      rw [he] at hm10
      exact hm10
    have hqp : q = p := unique_zero hk hp q hq hq0
    dsimp only
    rw [if_pos (by rw [hm10]; norm_num)]
    rw [hm10, he, hqp]

/-! ### Bounds helpers for C4 -/

theorem weighted_avg_bounds {v1 v2 w1 w2 lo hi : ℝ} (hw1 : 0 < w1) (hw2 : 0 < w2)
    (h1 : lo ≤ v1) (h2 : v1 ≤ hi) (h3 : lo ≤ v2) (h4 : v2 ≤ hi) :
    lo ≤ (v1 * w1 + v2 * w2) / (w1 + w2) ∧ (v1 * w1 + v2 * w2) / (w1 + w2) ≤ hi := by
  have hsum : 0 < w1 + w2 := by linarith
  constructor
  · rw [le_div_iff hsum]
    nlinarith
  · rw [div_le_iff hsum]
    nlinarith

theorem jsRound_div_bounds {x lo hi : ℝ} {ml mh : ℤ}
    (hml : ((ml : ℝ)) = lo * 10) (hmh : ((mh : ℝ)) = hi * 10)
    (h1 : lo ≤ x) (h2 : x ≤ hi) :
    lo ≤ jsRoundR (x * 10) / 10 ∧ jsRoundR (x * 10) / 10 ≤ hi := by
  unfold jsRoundR
  have hx10 : lo * 10 ≤ x * 10 ∧ x * 10 ≤ hi * 10 := by
    constructor <;> nlinarith
  have hfl : ml ≤ ⌊x * 10 + 1 / 2⌋ := by
    calc ml = ⌊(ml : ℝ) + 1 / 2⌋ := by
          rw [Int.floor_int_add]
          norm_num
      _ ≤ ⌊x * 10 + 1 / 2⌋ := Int.floor_le_floor (by linarith [hx10.1])
  have hfu : ⌊x * 10 + 1 / 2⌋ ≤ mh := by
    calc ⌊x * 10 + 1 / 2⌋ ≤ ⌊(mh : ℝ) + 1 / 2⌋ := Int.floor_le_floor (by linarith [hx10.2])
      _ = mh := by
          rw [Int.floor_int_add]
          norm_num
  have hcl : ((ml : ℝ)) ≤ ((⌊x * 10 + 1 / 2⌋ : ℤ) : ℝ) := Int.cast_le.mpr hfl
  have hcu : (((⌊x * 10 + 1 / 2⌋ : ℤ)) : ℝ) ≤ (mh : ℝ) := Int.cast_le.mpr hfu
  constructor
  · linarith
  · linarith

/-- Chart concentration values are exact tenths: `value * 10` is an
integer for every calibration point of every chart. -/
theorem chart_values_tenths :
    ∀ pr ∈ COLOR_CHARTS, ∀ q ∈ (Prod.snd pr).colors,
      ((⌊(q.value * 10 : ℚ)⌋ : ℚ)) = q.value * 10 := by
  intro pr hpr
  fin_cases hpr <;> (intro q hq; fin_cases hq <;> norm_num)

/-! ### C4: interpolation boundedness -/

/-- C4: every result of `matchColorInterpolated` on a known chart lies
within the closed interval of that chart's concentration values, in the
shortcut branch, the weighted branch, and after rounding to one decimal
place. -/
theorem c4_interpolation_bounded (sr sg sb : ℝ) (key : String) (chart : Chart)
    (res : InterpResult) (lo hi : ℚ)
    (hk : lookupChart key = some chart)
    (hres : matchColorInterpolated sr sg sb key = some res)
    (hlo : lo ∈ chart.colors.map RefColor.value)
    (hloLB : ∀ q ∈ chart.colors, lo ≤ q.value)
    (hhi : hi ∈ chart.colors.map RefColor.value)
    (hhiUB : ∀ q ∈ chart.colors, q.value ≤ hi) :
    ((lo : ℝ)) ≤ res.value ∧ res.value ≤ ((hi : ℝ)) := by
  obtain ⟨m1, rest, hsL, hm1, hmin, hde, hconf, hval⟩ := interp_cases sr sg sb hk hres
  rcases mem_matchEntries.mp hm1 with ⟨q1, hq1, he1⟩
  have hm11 : m1.1 = q1 := by rw [he1]
  have hv1lo : ((lo : ℝ)) ≤ ((q1.value : ℝ)) := by exact_mod_cast hloLB q1 hq1
  have hv1hi : (((q1.value : ℝ))) ≤ ((hi : ℝ)) := by exact_mod_cast hhiUB q1 hq1
  rcases hval with ⟨hv, _⟩ | ⟨m2, rest2, _, hm2, hv⟩
  · rw [hv, hm11]
    exact ⟨hv1lo, hv1hi⟩
  · rcases mem_matchEntries.mp hm2 with ⟨q2, hq2, he2⟩
    have hm21 : m2.1 = q2 := by rw [he2]
    have hv2lo : ((lo : ℝ)) ≤ ((q2.value : ℝ)) := by exact_mod_cast hloLB q2 hq2
    have hv2hi : (((q2.value : ℝ))) ≤ ((hi : ℝ)) := by exact_mod_cast hhiUB q2 hq2
    have hw1 : 0 < 1 / max m1.2 (0.001 : ℝ) :=
      div_pos one_pos (lt_of_lt_of_le (by norm_num) (le_max_right _ _))
    have hw2 : 0 < 1 / max m2.2 (0.001 : ℝ) :=
      div_pos one_pos (lt_of_lt_of_le (by norm_num) (le_max_right _ _))
    have hb1lo : ((lo : ℝ)) ≤ ((m1.1.value : ℝ)) := by rw [hm11]; exact hv1lo
    have hb1hi : ((m1.1.value : ℝ)) ≤ ((hi : ℝ)) := by rw [hm11]; exact hv1hi
    have hb2lo : ((lo : ℝ)) ≤ ((m2.1.value : ℝ)) := by rw [hm21]; exact hv2lo
    have hb2hi : ((m2.1.value : ℝ)) ≤ ((hi : ℝ)) := by rw [hm21]; exact hv2hi
    obtain ⟨hblo, hbhi⟩ := weighted_avg_bounds hw1 hw2 hb1lo hb1hi hb2lo hb2hi
    have h10lo : ((⌊(lo * 10 : ℚ)⌋ : ℚ)) = lo * 10 := by
      rcases chart_mem_of_lookup hk with ⟨pr, hprm, hpre⟩
      rcases List.mem_map.mp hlo with ⟨ql, hql, hqlv⟩
      have := chart_values_tenths pr hprm ql (by rw [hpre]; exact hql)
      rw [hqlv] at this
      exact this
    have h10hi : ((⌊(hi * 10 : ℚ)⌋ : ℚ)) = hi * 10 := by
      rcases chart_mem_of_lookup hk with ⟨pr, hprm, hpre⟩
      rcases List.mem_map.mp hhi with ⟨qh, hqh, hqhv⟩
      have := chart_values_tenths pr hprm qh (by rw [hpre]; exact hqh)
      rw [hqhv] at this
      exact this
    have hmlR : ((⌊(lo * 10 : ℚ)⌋ : ℤ) : ℝ) = ((lo : ℝ)) * 10 := by exact_mod_cast h10lo
    have hmhR : ((⌊(hi * 10 : ℚ)⌋ : ℤ) : ℝ) = ((hi : ℝ)) * 10 := by exact_mod_cast h10hi
    obtain ⟨hr1, hr2⟩ := jsRound_div_bounds hmlR hmhR hblo hbhi
    rw [hv]
    exact ⟨hr1, hr2⟩

theorem c4_interpolation_bounded_witness :
    ((0 : ℚ) : ℝ) ≤ (InterpResult.mk (((0 : ℚ) : ℝ)) 0 ("high")).value ∧
    (InterpResult.mk (((0 : ℚ) : ℝ)) 0 ("high")).value ≤ ((10 : ℚ) : ℝ) :=
  c4_interpolation_bounded (((255 : ℕ) : ℝ)) (((248 : ℕ) : ℝ)) (((240 : ℕ) : ℝ))
    ("freeChlorine") freeChlorineChart _ 0 10 rfl
    (interp_at_point ("freeChlorine") freeChlorineChart ⟨0, 255, 248, 240⟩ rfl
      (by simp [freeChlorineChart]))
    (by simp [freeChlorineChart])
    (by norm_num [freeChlorineChart, List.forall_mem_cons])
    (by simp [freeChlorineChart])
    (by norm_num [freeChlorineChart, List.forall_mem_cons])

/-! ### C5: confidence is the step function of the nearest distance -/

/-- Rank of a confidence label, "high" best. -/
def confRank (s : String) : ℕ :=
  if s = "high" then 0 else if s = "medium" then 1 else 2

/-- C5: the confidence of every `matchColorInterpolated` result equals
the step function `<10 → high, <25 → medium, else low` applied to the
nearest deltaE (the result's own `deltaE`, which is minimal over the
chart); the `<1` shortcut also returns "high", consistently with the
step function; and the step function never improves as the distance
grows. -/
theorem c5_confidence_step (sr sg sb : ℝ) (key : String) (chart : Chart)
    (res : InterpResult)
    (hk : lookupChart key = some chart)
    (hres : matchColorInterpolated sr sg sb key = some res) :
    res.confidence = confidenceOf res.deltaE ∧
    (∃ q ∈ chart.colors,
      res.deltaE = deltaE76 (rgbToLab (sr / 255) (sg / 255) (sb / 255)) (refLab q)) ∧
    (∀ q ∈ chart.colors,
      res.deltaE ≤ deltaE76 (rgbToLab (sr / 255) (sg / 255) (sb / 255)) (refLab q)) ∧
    (∀ d1 d2 : ℝ, d1 ≤ d2 → confRank (confidenceOf d1) ≤ confRank (confidenceOf d2)) := by
  obtain ⟨m1, rest, hsL, hm1, hmin, hde, hconf, hval⟩ := interp_cases sr sg sb hk hres
  refine ⟨by rw [hconf, hde], ?_, ?_, ?_⟩
  · rcases mem_matchEntries.mp hm1 with ⟨q1, hq1, he1⟩
    refine ⟨q1, hq1, ?_⟩
    rw [hde, he1]
  · intro q hq
    rw [hde]
    exact hmin _ (List.mem_map_of_mem _ hq)
  · intro d1 d2 h
    unfold confidenceOf
    split_ifs <;> simp [confRank] <;> linarith

theorem c5_confidence_step_witness :
    (InterpResult.mk (((0 : ℚ) : ℝ)) 0 ("high")).confidence =
      confidenceOf (InterpResult.mk (((0 : ℚ) : ℝ)) 0 ("high")).deltaE :=
  (c5_confidence_step (((255 : ℕ) : ℝ)) (((248 : ℕ) : ℝ)) (((240 : ℕ) : ℝ))
    ("freeChlorine") freeChlorineChart _ rfl
    (interp_at_point ("freeChlorine") freeChlorineChart ⟨0, 255, 248, 240⟩ rfl
      (by simp [freeChlorineChart]))).1

/-! ### C9: unknown chart keys -/

/-- C9: a key that names no chart makes both matchers return `none`,
for every sampled color. -/
theorem c9_unknown_key (sr sg sb : ℝ) (key : String)
    (hk : key ∉ COLOR_CHARTS.map Prod.fst) :
    matchColor sr sg sb key = none ∧ matchColorInterpolated sr sg sb key = none := by
  have hl : lookupChart key = none := by
    unfold lookupChart
    have hf : COLOR_CHARTS.find? (fun p => p.1 == key) = none :=
      List.find?_eq_none.mpr (fun pr hpr => by
        simp only [beq_iff_eq]
        intro he
        exact hk (he ▸ List.mem_map_of_mem Prod.fst hpr))
    rw [hf]
    rfl
  constructor
  · unfold matchColor
    rw [hl]
  · unfold matchColorInterpolated
    rw [hl]

theorem c9_unknown_key_witness :
    matchColor 0 0 0 ("orp") = none ∧ matchColorInterpolated 0 0 0 ("orp") = none :=
  c9_unknown_key 0 0 0 ("orp") (by decide)

end Sparobot
